import Mathlib

/-!
# The gateway's request pipeline

A shallow embedding of the Go sources

* `backend/internal/auth/clerk.go`      (identity verifier),
* `backend/internal/ratelimit/redis.go` (quota counter),
* `backend/internal/database/neon.go`   (usage logger),
* `backend/internal/proxy/gemini.go`    (forwarding handler),
* `backend/cmd/server/main.go`          (the protected route group),

followed by theorems about them.

Conventions of the embedding.

* A handler does not return a value in Go: it calls methods on the
  `http.ResponseWriter` it is given and acts on external services.  Here a
  handler returns the list of calls it makes on its writer, in order, and the
  new state of the external services (`World`).  A call that panics ends the
  handler: the calls listed after it are not made (`ResponseWriter.run` stops
  there).  What the client receives is
  obtained by replaying the calls on the server's writer (`ResponseWriter.respond`)
  and finishing the request.  This keeps the dynamic dispatch of Go visible: the
  same calls replayed on the status-capturing wrapper of `neon.go` give the
  recorded status code.
* What the outside world answers while one request is handled (clock, identity
  provider, availability of the counter store, upstream reply, process
  environment) is collected in `Env`, an input of the handler.
* Go strings and byte slices are both Lean strings.
* A command that the counter store answers with an error leaves the store as it
  was; why a command errs (network, timeout, 64-bit overflow of the counter,
  command quota of the hosted store) is the environment's choice.
* Status codes are natural numbers.  `WriteHeader` panics on a code outside
  100..999 and treats the codes 100..199 other than 101 as interim responses; a
  panic ends the handler, and `middleware.Recoverer` of `main` answers it.
* The response writer records what the handler hands to the server: the status,
  the handler's header map as it stood when the status went out, and the bytes
  written.  On the wire the server adds headers of its own (`Date`,
  `Content-Length` or `Transfer-Encoding`, a sniffed `Content-Type` when none is
  set); these are not represented.
-/

namespace Gateway

/-! ## `net/http`: header maps and the response writer -/

/-- The Go type `http.Header`, a map from header names to their values. -/
abbrev Header := String → Option (List String)

/-- The empty header map. -/
def Header.empty : Header := fun _ => none

/-- The Go statement `h[k] = vs`. -/
def Header.assign (h : Header) (k : String) (vs : List String) : Header :=
  fun k' => if k' = k then some vs else h k'

/-- The method `h.Set(k, v)`; every key the program passes is already in canonical
form, so no canonicalisation is modelled. -/
def Header.Set (h : Header) (k v : String) : Header :=
  Header.assign h k [v]

/-- A method call that a handler makes on its `http.ResponseWriter`. -/
inductive Call where
  /-- The call `w.Header().Set(k, v)`. -/
  | HeaderSet (k v : String)
  /-- The statement `w.Header()[k] = vs`. -/
  | HeaderAssign (k : String) (vs : List String)
  /-- The call `w.WriteHeader(code)`. -/
  | WriteHeader (code : Nat)
  /-- The call `w.Write(p)`. -/
  | Write (p : String)
  deriving DecidableEq, Repr

/-- The server's response writer, as far as the handler determines it: the live
header map, the status once it is sent together with the handler's header map as it
stood then, and the body bytes the writer has accepted from the handler so far.  The
headers that the server adds on the wire are not part of it. -/
structure ResponseWriter where
  header : Header
  status : Option Nat
  sent : Header
  body : String

/-- A writer on which nothing has happened yet. -/
def ResponseWriter.fresh : ResponseWriter :=
  { header := Header.empty, status := none, sent := Header.empty, body := "" }

/-- The check `checkWriteHeaderCode` of `net/http`: a code outside 100..999 makes
`WriteHeader` panic. -/
def validCode (code : Nat) : Bool :=
  decide (100 ≤ code ∧ code ≤ 999)

/-- The codes that `WriteHeader` sends as an interim response without fixing the
status of the response: 100..199 except 101. -/
def informational (code : Nat) : Bool :=
  decide (100 ≤ code ∧ code ≤ 199 ∧ code ≠ 101)

/-- The codes that `WriteHeader` accepts as the status of the response. -/
def finalCode (code : Nat) : Bool :=
  validCode code && !informational code

/-- The server sends the status with a snapshot of the header map, unless a status
was sent before. -/
def ResponseWriter.send (w : ResponseWriter) (code : Nat) : ResponseWriter :=
  match w.status with
  | some _ => w
  | none => { w with status := some code, sent := w.header }

/-- The method `WriteHeader` of the server's writer; `none` is a panic.  After a
status was sent the call is superfluous and ignored; otherwise the code is checked,
an interim code fixes nothing, and any other code is sent as the status. -/
def ResponseWriter.WriteHeader (w : ResponseWriter) (code : Nat) : Option ResponseWriter :=
  match w.status with
  | some _ => some w
  | none =>
    if validCode code then
      if informational code then some w else some (ResponseWriter.send w code)
    else none

/-- The function `bodyAllowedForStatus` of `net/http`: the statuses 1xx, 204 and 304
have no body. -/
def bodyAllowedForStatus (status : Nat) : Bool :=
  !(decide (100 ≤ status ∧ status ≤ 199) || decide (status = 204) || decide (status = 304))

/-- The method `Write` of the server's writer: an implicit `WriteHeader(200)` when no
status was sent; then the bytes are appended, unless the status sent allows no body
(the call then returns an error, which `io.Copy` and `fmt.Fprintln` pass on and the
program ignores). -/
def ResponseWriter.Write (w : ResponseWriter) (p : String) : ResponseWriter :=
  let w1 := ResponseWriter.send w 200
  match w1.status with
  | some code => if bodyAllowedForStatus code then { w1 with body := w1.body ++ p } else w1
  | none => w1

/-- One call of a handler, executed by the server's writer; `none` is a panic. -/
def ResponseWriter.call (w : ResponseWriter) : Call → Option ResponseWriter
  | .HeaderSet k v => some { w with header := Header.Set w.header k v }
  | .HeaderAssign k vs => some { w with header := Header.assign w.header k vs }
  | .WriteHeader code => ResponseWriter.WriteHeader w code
  | .Write p => some (ResponseWriter.Write w p)

/-- The calls of a handler, executed in order by the server's writer until one of them
panics: the writer reached, and whether a call has panicked. -/
def ResponseWriter.run (w : ResponseWriter) : List Call → ResponseWriter × Bool
  | [] => (w, false)
  | c :: rest =>
    match ResponseWriter.call w c with
    | none => (w, true)
    | some w1 => ResponseWriter.run w1 rest

/-- When the handler returns without having sent a status, the server sends 200. -/
def ResponseWriter.finishRequest (w : ResponseWriter) : ResponseWriter :=
  ResponseWriter.send w 200

/-- The middleware `middleware.Recoverer` installed in `main`, after a panic of the
handler: it calls `WriteHeader(500)` (for a request that is not a connection
upgrade). -/
def middleware.Recoverer (w : ResponseWriter) : ResponseWriter :=
  ResponseWriter.send w 500

/-- What the handler chain of `main` hands to the server when a handler making `calls`
is served on `w`: the request is finished when the handler returns, and a panic is
answered by `middleware.Recoverer`. -/
def ResponseWriter.respond (w : ResponseWriter) (calls : List Call) : ResponseWriter :=
  match ResponseWriter.run w calls with
  | (w1, false) => ResponseWriter.finishRequest w1
  | (w1, true) => middleware.Recoverer w1

/-- Whether the calls of a handler end in a panic when they are made on a writer that
has sent no status, as the writer of every handler of `main` is when the handler is
entered (no middleware of `main` writes before it calls its next handler). -/
def aborts (calls : List Call) : Bool :=
  (ResponseWriter.run ResponseWriter.fresh calls).2

/-- The function `http.Error(w, error, code)`. -/
def http.Error (error : String) (code : Nat) : List Call :=
  [ .HeaderSet "Content-Type" "text/plain; charset=utf-8",
    .HeaderSet "X-Content-Type-Options" "nosniff",
    .WriteHeader code,
    .Write (error ++ "\n") ]

/-! ## Requests and their context -/

/-- The part of `clerk.SessionClaims` the program reads. -/
structure SessionClaims where
  Subject : String
  deriving DecidableEq, Repr

/-- A value stored in a request context under a string key: a Go string, or a
value of another type (on which the assertion `.(string)` fails). -/
inductive Any where
  | str (s : String)
  | other (n : Int)
  deriving DecidableEq, Repr

/-- The request context: the slot of the identity provider (its key is private to
the provider's package) and the values stored under string keys. -/
structure Context where
  sessionClaims : Option SessionClaims
  values : String → Option Any

/-- The context of a request as the server creates it. -/
def Context.background : Context :=
  { sessionClaims := none, values := fun _ => none }

/-- The call `ctx.Value(key)` for a string key. -/
def Context.Value (ctx : Context) (key : String) : Option Any :=
  ctx.values key

/-- The call `context.WithValue(ctx, key, val)` for a string key. -/
def Context.WithValue (ctx : Context) (key : String) (val : Any) : Context :=
  { ctx with values := fun k => if k = key then some val else ctx.values k }

/-- The call `clerk.ContextWithSessionClaims(ctx, claims)`. -/
def Context.WithSessionClaims (ctx : Context) (claims : SessionClaims) : Context :=
  { ctx with sessionClaims := some claims }

/-- The call `clerk.SessionClaimsFromContext(ctx)`. -/
def SessionClaimsFromContext (ctx : Context) : Option SessionClaims :=
  ctx.sessionClaims

/-- The parsed request URL: its path and its query parameters in order. -/
structure URL where
  Path : String
  Query : List (String × String)

/-- The call `u.Query().Get(key)`: the first value of the parameter, or the empty string. -/
def URL.QueryGet (u : URL) (key : String) : String :=
  (u.Query.lookup key).getD ""

/-- An inbound `http.Request`. -/
structure Request where
  Method : String
  URL : URL
  Header : Header
  Body : String
  ctx : Context

/-- The call `r.WithContext(ctx)`. -/
def Request.WithContext (r : Request) (ctx : Context) : Request :=
  { r with ctx := ctx }

/-! ## External services -/

/-- A counter of the store with its expiry time, if one is set. -/
structure RedisEntry where
  value : Int
  expireAt : Option Nat
  deriving DecidableEq, Repr

/-- The contents of the counter store. -/
abbrev Store := String → Option RedisEntry

/-- The store with no key. -/
def Store.empty : Store := fun _ => none

/-- The store with one key rewritten. -/
def Store.put (s : Store) (key : String) (e : RedisEntry) : Store :=
  fun k => if k = key then some e else s k

/-- An entry is live until its expiry time is reached. -/
def RedisEntry.live (e : RedisEntry) (now : Nat) : Bool :=
  match e.expireAt with
  | none => true
  | some t => decide (now < t)

/-- The entry the store holds for `key` at time `now`; an expired entry is gone. -/
def Store.get (s : Store) (now : Nat) (key : String) : Option RedisEntry :=
  match s key with
  | some e => if e.live now then some e else none
  | none => none

/-- A row of the table `request_logs`. -/
structure LogEntry where
  user_id : String
  endpoint : String
  status_code : Nat
  created_at : Nat
  deriving DecidableEq, Repr

/-- The outbound request built by `http.NewRequest`. -/
structure ProxyRequest where
  Method : String
  URL : String
  Body : String
  Header : Header

/-- The upstream `http.Response`: the header map is given by its entries, one per key. -/
structure Response where
  StatusCode : Nat
  Header : List (String × List String)
  Body : String
  deriving DecidableEq, Repr

/-- The state of the external services: the counter store, the usage log entries
submitted so far, and the outbound calls attempted so far. -/
structure World where
  redis : Store
  logs : List LogEntry
  outbound : List ProxyRequest

/-- What the identity provider's middleware does with a request: it answers 401
itself, it lets the request through as it is, or it lets it through with the
verified session claims in the context. -/
inductive Verification where
  | rejected
  | unchanged
  | verified (claims : SessionClaims)
  deriving DecidableEq, Repr

/-- What the outside world answers while one request is handled. -/
structure Env where
  /-- The clock, in seconds. -/
  now : Nat
  /-- The function `os.Getenv`. -/
  Getenv : String → String
  /-- The outcome of the identity provider for a request. -/
  verify : Request → Verification
  /-- Whether the store answers the `INCR` of this request with an error. -/
  incrFails : Bool
  /-- Whether the store answers the `EXPIRE` of this request with an error. -/
  expireFails : Bool
  /-- Whether `http.NewRequest` accepts a method and a URL. -/
  validRequest : String → String → Bool
  /-- The method `http.Client.Do`: the upstream response, or nothing on an error. -/
  Do : ProxyRequest → Option Response

/-- An `http.Handler`: from the environment, the request and the state of the services
to the calls made on the response writer and the new state of the services. -/
abbrev Handler := Env → Request → World → List Call × World

/-- The command `INCR key`: an error, or the new value and the new store.  A key
that is absent or expired starts from zero and has no expiry. -/
def Incr (env : Env) (key : String) (s : Store) : Option (Int × Store) :=
  if env.incrFails then none
  else
    match Store.get s env.now key with
    | some e => some (e.value + 1, Store.put s key { e with value := e.value + 1 })
    | none => some (1, Store.put s key { value := 1, expireAt := none })

/-- The command `EXPIRE key seconds`, whose result the caller ignores. -/
def Expire (env : Env) (key : String) (seconds : Nat) (s : Store) : Store :=
  if env.expireFails then s
  else
    match Store.get s env.now key with
    | some e => Store.put s key { e with expireAt := some (env.now + seconds) }
    | none => s

/-! ## `auth/clerk.go` -/

/-- The middleware `clerkhttp.WithHeaderAuthorization()` of the identity provider. -/
def WithHeaderAuthorization (next : Handler) : Handler := fun env r world =>
  match env.verify r with
  | .rejected => ([.WriteHeader 401], world)
  | .unchanged => next env r world
  | .verified claims => next env (r.WithContext (r.ctx.WithSessionClaims claims)) world

/-- The Go type `ClerkAuth`. -/
structure ClerkAuth where
  deriving DecidableEq, Repr

/-- The method `ClerkAuth.Middleware`. -/
def ClerkAuth.Middleware (_c : ClerkAuth) (next : Handler) : Handler :=
  WithHeaderAuthorization (fun env r world =>
    match SessionClaimsFromContext r.ctx with
    | none => (http.Error "Unauthorized: No session found" 401, world)
    | some claims =>
      let ctx := r.ctx.WithValue "user_id" (.str claims.Subject)
      next env (r.WithContext ctx) world)

/-! ## `ratelimit/redis.go` -/

/-- A handle on the counter store. -/
structure RedisClient where
  deriving DecidableEq, Repr

/-- The Go type `RedisLimiter`; `client` is `none` for the nil pointer. -/
structure RedisLimiter where
  client : Option RedisClient
  deriving DecidableEq, Repr

/-- The options that `redis.ParseURL` returns for a well-formed URL. -/
structure RedisOptions where
  deriving DecidableEq, Repr

/-- The function `redis.NewClient`. -/
def redis.NewClient (_opt : RedisOptions) : RedisClient := {}

/-- The function `NewRedisLimiter`; `ParseURL` is `redis.ParseURL`, which returns
nothing on an error. -/
def NewRedisLimiter (Getenv : String → String) (ParseURL : String → Option RedisOptions) :
    RedisLimiter :=
  match ParseURL (Getenv "UPSTASH_REDIS_URL") with
  | none => { client := none }
  | some opt => { client := some (redis.NewClient opt) }

/-- The method `RedisLimiter.Middleware`. -/
def RedisLimiter.Middleware (l : RedisLimiter) (next : Handler) : Handler := fun env r world =>
  match l.client with
  | none => next env r world
  | some _ =>
    match r.ctx.Value "user_id" with
    | some (.str userID) =>
      let key := "ratelimit:" ++ userID
      let limit : Int := 10
      let window : Nat := 60
      match Incr env key world.redis with
      | none => next env r world
      | some (count, store1) =>
        let store2 := if count = 1 then Expire env key window store1 else store1
        if count > limit then
          (.HeaderSet "Retry-After" "60" :: http.Error "Too Many Requests" 429,
            { world with redis := store2 })
        else
          next env r { world with redis := store2 }
    | _ => (http.Error "Unauthorized" 401, world)

/-! ## `database/neon.go` -/

/-- A handle on the log store. -/
structure SqlDB where
  deriving DecidableEq, Repr

/-- The Go type `NeonDB`; `db` is `none` for the nil pointer. -/
structure NeonDB where
  db : Option SqlDB
  deriving DecidableEq, Repr

/-- The function `NewNeonDB`; `sqlOpen` is `sql.Open("postgres", ·)`, which returns
nothing on an error.  The result of the table creation is ignored. -/
def NewNeonDB (Getenv : String → String) (sqlOpen : String → Option SqlDB) : NeonDB :=
  let connStr := Getenv "DATABASE_URL"
  if connStr = "" then { db := none }
  else
    match sqlOpen connStr with
    | none => { db := none }
    | some db => { db := some db }

/-- The Go type `responseWriter`: the calls passed on to the embedded writer, and the
captured status code. -/
structure responseWriter where
  ResponseWriter : List Call
  statusCode : Nat
  deriving DecidableEq, Repr

/-- The function `NewResponseWriter`. -/
def NewResponseWriter : responseWriter :=
  { ResponseWriter := [], statusCode := 200 }

/-- The method `responseWriter.WriteHeader`. -/
def responseWriter.WriteHeader (rw : responseWriter) (code : Nat) : responseWriter :=
  { statusCode := code, ResponseWriter := rw.ResponseWriter ++ [.WriteHeader code] }

/-- One call of a handler on the wrapper: `WriteHeader` is the wrapper's own method,
every other method is promoted from the embedded writer. -/
def responseWriter.call (rw : responseWriter) : Call → responseWriter
  | .WriteHeader code => responseWriter.WriteHeader rw code
  | c => { rw with ResponseWriter := rw.ResponseWriter ++ [c] }

/-- All calls of a handler, executed in order on the wrapper. -/
def responseWriter.serve (rw : responseWriter) (calls : List Call) : responseWriter :=
  calls.foldl responseWriter.call rw

/-- The method `NeonDB.Middleware`.  The insert is submitted from a goroutine that
reads the captured status after the handler has returned.  Nothing is deferred: when
a call of the handler panics, the panic leaves the middleware and what follows
`next.ServeHTTP` does not run. -/
def NeonDB.Middleware (d : NeonDB) (next : Handler) : Handler := fun env r world =>
  let start := env.now
  let (calls, world1) := next env r world
  let rw := responseWriter.serve NewResponseWriter calls
  if aborts calls then (rw.ResponseWriter, world1)
  else
    match d.db with
    | some _ =>
      let userID := match r.ctx.Value "user_id" with
        | some (.str s) => s
        | _ => ""
      (rw.ResponseWriter,
        { world1 with logs := world1.logs ++ [⟨userID, r.URL.Path, rw.statusCode, start⟩] })
    | none => (rw.ResponseWriter, world1)

/-! ## `proxy/gemini.go` -/

/-- The function `http.NewRequest`: an error, or a request with an empty header map. -/
def http.NewRequest (env : Env) (method url body : String) : Option ProxyRequest :=
  if env.validRequest method url then
    some { Method := method, URL := url, Body := body, Header := Header.empty }
  else none

/-- The function `HandleGeminiProxy`. -/
def HandleGeminiProxy : Handler := fun env r world =>
  let apiKey := env.Getenv "GEMINI_API_KEY"
  if apiKey = "" then
    (http.Error "Server Configuration Error: Missing API Key" 500, world)
  else
    let model := r.URL.QueryGet "model"
    let model := if model = "" then "gemini-3-pro-preview" else model
    let targetURL := "https://generativelanguage.googleapis.com/v1beta/models/" ++ model
      ++ ":generateContent?key=" ++ apiKey
    match http.NewRequest env r.Method targetURL r.Body with
    | none => (http.Error "Failed to create proxy request" 500, world)
    | some proxyReq =>
      let proxyReq := { proxyReq with Header := Header.Set proxyReq.Header "Content-Type" "application/json" }
      let world1 := { world with outbound := world.outbound ++ [proxyReq] }
      match env.Do proxyReq with
      | none => (http.Error "Failed to contact Gemini API" 502, world1)
      | some resp =>
        (resp.Header.map (fun kv => Call.HeaderAssign kv.1 kv.2)
          ++ [.WriteHeader resp.StatusCode, .Write resp.Body], world1)

/-! ## `cmd/server/main.go` -/

/-- The handler of the protected route group of `main`:
`r.Use(clerkAuth.Middleware)`, `r.Use(limiter.Middleware)`, `r.Use(db.Middleware)`
around `proxy.HandleGeminiProxy`. -/
def protectedRoute (clerkAuth : ClerkAuth) (limiter : RedisLimiter) (db : NeonDB) : Handler :=
  clerkAuth.Middleware (limiter.Middleware (db.Middleware HandleGeminiProxy))

/-! ## Sequences of requests -/

/-- A request together with what the outside world answers while it is handled. -/
structure Arrival where
  env : Env
  req : Request

/-- A handler serving a sequence of requests one after the other: the calls made for
each request, and the final state of the services. -/
def serveAll (h : Handler) : World → List Arrival → List (List Call) × World
  | w, [] => ([], w)
  | w, a :: rest =>
    let out := h a.env a.req w
    let tail := serveAll h out.2 rest
    (out.1 :: tail.1, tail.2)

/-! ## Notions used by the statements -/

/-- The session claims that the handler inside `ClerkAuth.Middleware` finds in the
request context, if the identity provider's middleware lets the request through. -/
def sessionOf (env : Env) (r : Request) : Option SessionClaims :=
  match env.verify r with
  | .rejected => none
  | .unchanged => SessionClaimsFromContext r.ctx
  | .verified claims => some claims

/-- A next handler that writes nothing and leaves the services as they are. -/
def pass : Handler := fun _ _ world => ([], world)

/-! ## Concrete inputs -/

/-- An environment in which every service answers and the upstream key is configured. -/
def sampleEnv : Env :=
  { now := 0,
    Getenv := fun name => if name = "GEMINI_API_KEY" then "k1" else "",
    verify := fun _ => .unchanged,
    incrFails := false,
    expireFails := false,
    validRequest := fun _ _ => true,
    Do := fun _ => none }

/-- A request to the protected route as the server hands it over. -/
def sampleRequest : Request :=
  { Method := "POST",
    URL := { Path := "/api/generate-content", Query := [] },
    Header := Header.empty,
    Body := "ping",
    ctx := Context.background }

/-- The request of `sampleRequest` after the identity `user_1` was attached. -/
def userRequest (u : String) : Request :=
  sampleRequest.WithContext (Context.background.WithValue "user_id" (.str u))

/-- The services before any request. -/
def World.initial : World :=
  { redis := Store.empty, logs := [], outbound := [] }

/-- The status code of the last explicit `WriteHeader` among the calls, if any. -/
def lastWriteHeader : List Call → Option Nat
  | [] => none
  | .WriteHeader code :: rest => (lastWriteHeader rest).orElse (fun _ => some code)
  | _ :: rest => lastWriteHeader rest

/-- Whether a call is a `WriteHeader`. -/
def Call.isWriteHeader : Call → Bool
  | .WriteHeader _ => true
  | _ => false

/-- Whether a call makes the server send the status: `WriteHeader` and `Write`. -/
def Call.sendsStatus : Call → Bool
  | .WriteHeader _ => true
  | .Write _ => true
  | _ => false

/-- The handler calls `WriteHeader` at most once, and not after a `Write`: no
`WriteHeader` follows the first call that sends the status. -/
def headerOnce : List Call → Bool
  | [] => true
  | c :: rest => if c.sendsStatus then rest.all (fun c => !c.isWriteHeader) else headerOnce rest

/-- Whether a call is acceptable as the one that fixes the status: every call but a
`WriteHeader` with a code that is not accepted as the status of the response. -/
def Call.fixesStatus : Call → Bool
  | .WriteHeader code => finalCode code
  | _ => true

/-- The handler sends the status once: it calls `WriteHeader` at most once and not
after a `Write`, and with a code that is accepted as the status of the response. -/
def sendsHeaderOnce (calls : List Call) : Bool :=
  headerOnce calls && calls.all Call.fixesStatus

/-- A handler that starts writing the body and then reports a failure. -/
def streamThenFail : Handler := fun _ _ world =>
  (.Write "data: " :: http.Error "stream broken" 500, world)

/-- An upstream response. -/
def upstreamOK : Response :=
  { StatusCode := 200, Header := [("Content-Type", ["application/json"])], Body := "[]" }

/-- The environment of `sampleEnv` in which the upstream answers `upstreamOK`. -/
def upstreamEnv : Env :=
  { sampleEnv with Do := fun _ => some upstreamOK }

/-- A writer on which a status has already been sent. -/
def sentWriter : ResponseWriter :=
  ResponseWriter.send ResponseWriter.fresh 204

/-- An upstream response whose status code is not one that `WriteHeader` accepts. -/
def upstreamOdd : Response :=
  { StatusCode := 99, Header := [("Content-Type", ["application/json"])], Body := "[]" }

/-- The environment of `sampleEnv` in which the upstream answers `upstreamOdd`. -/
def oddEnv : Env :=
  { sampleEnv with Do := fun _ => some upstreamOdd }

/-- A writer on which an outer middleware has set a header and nothing was sent yet,
as the CORS middleware installed in `main` does. -/
def corsWriter : ResponseWriter :=
  { ResponseWriter.fresh with header := Header.assign Header.empty "Vary" ["Origin"] }

/-- No expiry of `key` in between: whenever a request of the sequence arrives, the
entry that the store holds for `key`, if any, is still live. -/
def keyKept (h : Handler) (key : String) : World → List Arrival → Bool
  | _, [] => true
  | w, a :: rest =>
    (match w.redis key with
      | none => true
      | some e => e.live a.env.now)
    && keyKept h key (h a.env a.req w).2 rest

/-- The counter of `key` stands at `n`: there is no entry when `n = 0`, and an entry
with value `n` otherwise. -/
def countIs (s : Store) (key : String) (n : Nat) : Prop :=
  match s key with
  | none => n = 0
  | some e => e.value = n ∧ 1 ≤ n

/-- Whether the request of an arrival carries the identity `u`. -/
def carries (u : String) (a : Arrival) : Bool :=
  decide (a.req.ctx.Value "user_id" = some (.str u))

/-- The answers, in order, that a handler serving a sequence of requests gives to the
requests that do not carry the identity `u`. -/
def answersToOthers (h : Handler) (u : String) : World → List Arrival → List (List Call)
  | _, [] => []
  | w, a :: rest =>
    if carries u a then answersToOthers h u (h a.env a.req w).2 rest
    else (h a.env a.req w).1 :: answersToOthers h u (h a.env a.req w).2 rest

/-- A request of identity `u` arriving at time `t` while every service answers. -/
def arrivalAt (t : Nat) (u : String) : Arrival :=
  { env := { sampleEnv with now := t }, req := userRequest u }

/-- A request of identity `u` arriving at time `t` whose `INCR` is answered and whose
`EXPIRE` is answered with an error. -/
def arrivalLosingExpire (t : Nat) (u : String) : Arrival :=
  { env := { sampleEnv with now := t, expireFails := true }, req := userRequest u }

/-- The limiter of `main` with a client, followed by a handler that writes nothing. -/
def sampleLimiter : Handler :=
  RedisLimiter.Middleware ⟨some {}⟩ pass

/-- Eleven requests of `user_1` within two seconds; the `EXPIRE` of the first is lost. -/
def burstLosingExpire : List Arrival :=
  arrivalLosingExpire 0 "user_1" :: List.replicate 10 (arrivalAt 1 "user_1")

/-- The entry of a key after an answered `INCR` at time `now`, from the entry that was
stored for it. -/
def incremented (now : Nat) (stored : Option RedisEntry) : RedisEntry :=
  match stored with
  | some e => if e.live now then { e with value := e.value + 1 } else { value := 1, expireAt := none }
  | none => { value := 1, expireAt := none }

/-- The entry of a key after the limiter's commands on it: an answered `INCR`, and
when the new value is 1 an `EXPIRE` of 60 seconds unless that command fails. -/
def counted (env : Env) (stored : Option RedisEntry) : RedisEntry :=
  if (incremented env.now stored).value = 1 ∧ env.expireFails = false then
    { incremented env.now stored with expireAt := some (env.now + 60) }
  else incremented env.now stored

/-- Two states of the services hold the same entries under every key except `key`. -/
def agreeExcept (key : String) (w1 w2 : World) : Prop :=
  ∀ k : String, k ≠ key → w1.redis k = w2.redis k

end Gateway

namespace Gateway

/-! ## Basic facts about the response writer -/

theorem ResponseWriter.run_cons_some (w w1 : ResponseWriter) (c : Call) (cs : List Call)
    (h : ResponseWriter.call w c = some w1) :
    ResponseWriter.run w (c :: cs) = ResponseWriter.run w1 cs := by
  simp [ResponseWriter.run, h]

theorem ResponseWriter.run_cons_none (w : ResponseWriter) (c : Call) (cs : List Call)
    (h : ResponseWriter.call w c = none) :
    ResponseWriter.run w (c :: cs) = (w, true) := by
  simp [ResponseWriter.run, h]

theorem ResponseWriter.respond_eq (w : ResponseWriter) (cs : List Call) :
    ResponseWriter.respond w cs
      = if (ResponseWriter.run w cs).2 then middleware.Recoverer (ResponseWriter.run w cs).1
        else ResponseWriter.finishRequest (ResponseWriter.run w cs).1 := by
  unfold ResponseWriter.respond
  rcases ResponseWriter.run w cs with ⟨w1, b⟩
  cases b <;> rfl

theorem ResponseWriter.run_append (cs ds : List Call) :
    ∀ w : ResponseWriter, (ResponseWriter.run w cs).2 = false →
      ResponseWriter.run w (cs ++ ds) = ResponseWriter.run (ResponseWriter.run w cs).1 ds := by
  induction cs with
  | nil => intro w _; rfl
  | cons c cs ih =>
    intro w h
    cases hc : ResponseWriter.call w c with
    | none => simp [ResponseWriter.run, hc] at h
    | some w1 =>
      simp only [List.cons_append, ResponseWriter.run, hc] at h ⊢
      exact ih w1 h

theorem ResponseWriter.send_of_sent (w : ResponseWriter) (s code : Nat)
    (h : w.status = some s) : ResponseWriter.send w code = w := by
  simp [ResponseWriter.send, h]

theorem ResponseWriter.Write_of_sent (w : ResponseWriter) (p : String) (s : Nat)
    (h : w.status = some s) :
    ResponseWriter.Write w p
      = if bodyAllowedForStatus s then { w with body := w.body ++ p } else w := by
  simp [ResponseWriter.Write, ResponseWriter.send, h]

theorem ResponseWriter.Write_of_none (w : ResponseWriter) (p : String)
    (h : w.status = none) :
    ResponseWriter.Write w p
      = { header := w.header, status := some 200, sent := w.header, body := w.body ++ p } := by
  have h200 : bodyAllowedForStatus 200 = true := by decide
  simp [ResponseWriter.Write, ResponseWriter.send, h, h200]

/-- Once a status is sent, no later call panics or changes it. -/
theorem ResponseWriter.call_of_sent (w : ResponseWriter) (c : Call) (s : Nat)
    (h : w.status = some s) :
    ∃ w1, ResponseWriter.call w c = some w1 ∧ w1.status = some s := by
  cases c with
  | HeaderSet k v => simp [ResponseWriter.call, h]
  | HeaderAssign k vs => simp [ResponseWriter.call, h]
  | WriteHeader code => simp [ResponseWriter.call, ResponseWriter.WriteHeader, h]
  | Write p =>
    refine ⟨ResponseWriter.Write w p, rfl, ?_⟩
    rw [ResponseWriter.Write_of_sent w p s h]
    split <;> simp [h]

theorem ResponseWriter.run_of_sent (cs : List Call) :
    ∀ (w : ResponseWriter) (s : Nat), w.status = some s →
      (ResponseWriter.run w cs).2 = false ∧ (ResponseWriter.run w cs).1.status = some s := by
  induction cs with
  | nil => intro w s h; exact ⟨rfl, h⟩
  | cons c cs ih =>
    intro w s h
    obtain ⟨w1, hc, hs⟩ := ResponseWriter.call_of_sent w c s h
    rw [ResponseWriter.run_cons_some w w1 c cs hc]
    exact ih w1 s hs

theorem ResponseWriter.respond_status_of_some (w : ResponseWriter) (cs : List Call) (s : Nat)
    (h : w.status = some s) : (ResponseWriter.respond w cs).status = some s := by
  obtain ⟨h1, h2⟩ := ResponseWriter.run_of_sent cs w s h
  simp [ResponseWriter.respond_eq, h1, ResponseWriter.finishRequest, ResponseWriter.send, h2]

/-- Whether a call panics depends on the writer through its status only. -/
theorem ResponseWriter.call_congr (w1 w2 : ResponseWriter) (c : Call)
    (h : w1.status = w2.status) :
    (ResponseWriter.call w1 c = none ↔ ResponseWriter.call w2 c = none)
    ∧ ∀ v1 v2, ResponseWriter.call w1 c = some v1 → ResponseWriter.call w2 c = some v2 →
        v1.status = v2.status := by
  cases hs : w2.status with
  | some s =>
    rw [hs] at h
    obtain ⟨u1, hu1, hs1⟩ := ResponseWriter.call_of_sent w1 c s h
    obtain ⟨u2, hu2, hs2⟩ := ResponseWriter.call_of_sent w2 c s hs
    refine ⟨by simp [hu1, hu2], ?_⟩
    intro v1 v2 h1 h2
    rw [hu1] at h1
    rw [hu2] at h2
    simp only [Option.some.injEq] at h1 h2
    rw [← h1, ← h2, hs1, hs2]
  | none =>
    rw [hs] at h
    cases c with
    | HeaderSet k v => simp [ResponseWriter.call, h, hs]
    | HeaderAssign k vs => simp [ResponseWriter.call, h, hs]
    | Write p =>
      simp [ResponseWriter.call, ResponseWriter.Write_of_none w1 p h,
        ResponseWriter.Write_of_none w2 p hs]
    | WriteHeader code =>
      by_cases hv : validCode code = true
      · by_cases hi : informational code = true
        · simp [ResponseWriter.call, ResponseWriter.WriteHeader, h, hs, hv, hi]
        · simp [ResponseWriter.call, ResponseWriter.WriteHeader, ResponseWriter.send, h, hs, hv, hi]
      · simp [ResponseWriter.call, ResponseWriter.WriteHeader, h, hs, hv]

theorem ResponseWriter.run_panic_congr (cs : List Call) :
    ∀ w1 w2 : ResponseWriter, w1.status = w2.status →
      (ResponseWriter.run w1 cs).2 = (ResponseWriter.run w2 cs).2 := by
  induction cs with
  | nil => intro w1 w2 _; rfl
  | cons c cs ih =>
    intro w1 w2 h
    obtain ⟨hnone, hsome⟩ := ResponseWriter.call_congr w1 w2 c h
    cases h1 : ResponseWriter.call w1 c with
    | none =>
      rw [ResponseWriter.run_cons_none w1 c cs h1,
        ResponseWriter.run_cons_none w2 c cs (hnone.1 h1)]
    | some v1 =>
      cases h2 : ResponseWriter.call w2 c with
      | none => rw [hnone.2 h2] at h1; cases h1
      | some v2 =>
        rw [ResponseWriter.run_cons_some w1 v1 c cs h1,
          ResponseWriter.run_cons_some w2 v2 c cs h2]
        exact ih v1 v2 (hsome v1 v2 h1 h2)

/-- On a writer that has sent no status, the calls end in a panic exactly when `aborts`
says so. -/
theorem ResponseWriter.run_aborts (w : ResponseWriter) (cs : List Call)
    (hw : w.status = none) : (ResponseWriter.run w cs).2 = aborts cs := by
  unfold aborts
  exact ResponseWriter.run_panic_congr cs w ResponseWriter.fresh (by rw [hw]; rfl)

/-- The response to `http.Error` with a code accepted as a status, on a writer that has
sent nothing: the status is the given code, the body is the message. -/
theorem http.Error_respond (w : ResponseWriter) (msg : String) (code : Nat)
    (hw : w.status = none) (hcode : finalCode code = true)
    (hbody : bodyAllowedForStatus code = true) :
    (ResponseWriter.respond w (http.Error msg code)).status = some code
    ∧ (ResponseWriter.respond w (http.Error msg code)).body = w.body ++ (msg ++ "\n") := by
  simp only [finalCode, Bool.and_eq_true, Bool.not_eq_true'] at hcode
  obtain ⟨hv, hi⟩ := hcode
  simp [ResponseWriter.respond, ResponseWriter.finishRequest, ResponseWriter.run, http.Error,
    ResponseWriter.call, ResponseWriter.WriteHeader, ResponseWriter.Write, ResponseWriter.send,
    hw, hv, hi, hbody]

/-! ## C1: no identity, no service -/

/-- C1. When the identity provider yields no session claims for a request, the
protected route of `main` answers 401 on a writer that has sent nothing, leaves the
services exactly as they were (no counter is incremented, no usage log entry is
submitted, no outbound call is made), and the answer is the same whatever handler
follows the identity verifier: the next handler is not invoked. -/
theorem protectedRoute_unauthorized (c : ClerkAuth) (l : RedisLimiter) (d : NeonDB)
    (env : Env) (r : Request) (world : World) (w : ResponseWriter)
    (hclaims : sessionOf env r = none) (hw : w.status = none) :
    (ResponseWriter.respond w (protectedRoute c l d env r world).1).status = some 401
    ∧ (protectedRoute c l d env r world).2 = world
    ∧ (protectedRoute c l d env r world).2.redis = world.redis
    ∧ (protectedRoute c l d env r world).2.logs = world.logs
    ∧ (protectedRoute c l d env r world).2.outbound = world.outbound
    ∧ ∀ next : Handler,
        ClerkAuth.Middleware c next env r world = protectedRoute c l d env r world := by
  unfold sessionOf at hclaims
  unfold protectedRoute ClerkAuth.Middleware WithHeaderAuthorization
  cases hv : env.verify r with
  | rejected =>
    have hvalid : validCode 401 = true := by decide
    have hinf : informational 401 = false := by decide
    simp [ResponseWriter.respond, ResponseWriter.finishRequest, ResponseWriter.run,
      ResponseWriter.call, ResponseWriter.WriteHeader, ResponseWriter.send, hw, hvalid, hinf]
  | unchanged =>
    rw [hv] at hclaims
    simp only at hclaims
    simp [hclaims,
      (http.Error_respond w "Unauthorized: No session found" 401 hw (by decide)
        (by decide)).1]
  | verified claims =>
    rw [hv] at hclaims
    simp at hclaims

/-- C1 at a concrete request without credentials. -/
theorem protectedRoute_unauthorized_witness :
    (ResponseWriter.respond ResponseWriter.fresh
      (protectedRoute {} ⟨some {}⟩ ⟨some {}⟩ sampleEnv sampleRequest World.initial).1).status
      = some 401
    ∧ (protectedRoute {} ⟨some {}⟩ ⟨some {}⟩ sampleEnv sampleRequest World.initial).2.logs = [] :=
  have h := protectedRoute_unauthorized {} ⟨some {}⟩ ⟨some {}⟩ sampleEnv sampleRequest
    World.initial ResponseWriter.fresh rfl rfl
  ⟨h.1, h.2.2.2.1⟩

/-! ## C3: the limiter fails open -/

/-- C3. Fail-open: when the limiter has no client (nil, as `NewRedisLimiter` leaves it
when the store URL does not parse), and also when the request carries an identity and
the increment of its counter returns an error, the limiter's handler is the next
handler on the unchanged request and the unchanged services: the next handler is
invoked once and the limiter writes nothing itself (with a next handler that writes
nothing, nothing is written), so no 429 is produced. -/
theorem RedisLimiter.Middleware_fail_open (l : RedisLimiter) (next : Handler) (env : Env)
    (r : Request) (world : World) :
    (l.client = none →
      l.Middleware next env r world = next env r world
      ∧ (l.Middleware pass env r world).1 = [])
    ∧ (∀ (Getenv : String → String) (ParseURL : String → Option RedisOptions),
        ParseURL (Getenv "UPSTASH_REDIS_URL") = none →
        (NewRedisLimiter Getenv ParseURL).Middleware next env r world = next env r world
        ∧ ((NewRedisLimiter Getenv ParseURL).Middleware pass env r world).1 = [])
    ∧ (∀ u : String, r.ctx.Value "user_id" = some (.str u) →
        Incr env ("ratelimit:" ++ u) world.redis = none →
        l.Middleware next env r world = next env r world
        ∧ (l.Middleware pass env r world).1 = []) := by
  refine ⟨?_, ?_, ?_⟩
  · intro hnil
    simp [RedisLimiter.Middleware, hnil, pass]
  · intro Getenv ParseURL hparse
    simp [RedisLimiter.Middleware, NewRedisLimiter, hparse, pass]
  · intro u hu hincr
    cases hc : l.client with
    | none => simp [RedisLimiter.Middleware, hc, pass]
    | some cl => simp [RedisLimiter.Middleware, hc, hu, hincr, pass]

/-! ## C5: the failures of the forwarding handler -/

/-- C5. On a writer that has sent nothing: with an empty upstream key the handler
answers 500 and attempts no outbound call; when the outbound request cannot be
constructed it answers 500 and attempts no outbound call; when the outbound call
returns an error it answers 502.  In each case the calls on the writer are those of
`http.Error` alone, so nothing of an upstream response reaches the client. -/
theorem HandleGeminiProxy_failures (env : Env) (r : Request) (world : World)
    (w : ResponseWriter) (hw : w.status = none) :
    (env.Getenv "GEMINI_API_KEY" = "" →
      (HandleGeminiProxy env r world).1
        = http.Error "Server Configuration Error: Missing API Key" 500
      ∧ (ResponseWriter.respond w (HandleGeminiProxy env r world).1).status = some 500
      ∧ (HandleGeminiProxy env r world).2 = world)
    ∧ (env.Getenv "GEMINI_API_KEY" ≠ "" →
        http.NewRequest env r.Method
          ("https://generativelanguage.googleapis.com/v1beta/models/"
            ++ (if r.URL.QueryGet "model" = "" then "gemini-3-pro-preview"
                else r.URL.QueryGet "model")
            ++ ":generateContent?key=" ++ env.Getenv "GEMINI_API_KEY") r.Body = none →
        (HandleGeminiProxy env r world).1 = http.Error "Failed to create proxy request" 500
        ∧ (ResponseWriter.respond w (HandleGeminiProxy env r world).1).status = some 500
        ∧ (HandleGeminiProxy env r world).2 = world)
    ∧ (env.Getenv "GEMINI_API_KEY" ≠ "" →
        ∀ q : ProxyRequest,
        http.NewRequest env r.Method
          ("https://generativelanguage.googleapis.com/v1beta/models/"
            ++ (if r.URL.QueryGet "model" = "" then "gemini-3-pro-preview"
                else r.URL.QueryGet "model")
            ++ ":generateContent?key=" ++ env.Getenv "GEMINI_API_KEY") r.Body = some q →
        env.Do { q with Header := Header.Set q.Header "Content-Type" "application/json" }
          = none →
        (HandleGeminiProxy env r world).1 = http.Error "Failed to contact Gemini API" 502
        ∧ (ResponseWriter.respond w (HandleGeminiProxy env r world).1).status = some 502
        ∧ (ResponseWriter.respond w (HandleGeminiProxy env r world).1).body
            = w.body ++ "Failed to contact Gemini API\n") := by
  refine ⟨?_, ?_, ?_⟩
  · intro hkey
    have hcalls : (HandleGeminiProxy env r world)
        = (http.Error "Server Configuration Error: Missing API Key" 500, world) := by
      simp [HandleGeminiProxy, hkey]
    rw [hcalls]
    exact ⟨rfl, (http.Error_respond w _ 500 hw (by decide) (by decide)).1, rfl⟩
  · intro hkey hreq
    have hcalls : (HandleGeminiProxy env r world)
        = (http.Error "Failed to create proxy request" 500, world) := by
      simp only [HandleGeminiProxy, hkey, if_false, hreq]
    rw [hcalls]
    exact ⟨rfl, (http.Error_respond w _ 500 hw (by decide) (by decide)).1, rfl⟩
  · intro hkey q hreq hdo
    have hcalls : (HandleGeminiProxy env r world).1
        = http.Error "Failed to contact Gemini API" 502 := by
      simp only [HandleGeminiProxy, hkey, if_false, hreq, hdo]
    rw [hcalls]
    exact ⟨rfl, (http.Error_respond w _ 502 hw (by decide) (by decide)).1,
      (http.Error_respond w _ 502 hw (by decide) (by decide)).2⟩

/-- C5 at a concrete request: the upstream key is configured, the outbound call fails. -/
theorem HandleGeminiProxy_failures_witness :
    (ResponseWriter.respond ResponseWriter.fresh
      (HandleGeminiProxy sampleEnv sampleRequest World.initial).1).status = some 502 :=
  ((HandleGeminiProxy_failures sampleEnv sampleRequest World.initial ResponseWriter.fresh
    rfl).2.2 (by decide) _ rfl rfl).2.1

/-! ## C8: the outbound request -/

/-- C8. With a non-empty upstream key `k` and query parameter `model = m`, the request
handed to `http.NewRequest` and then sent has the inbound method, the URL
`https://generativelanguage.googleapis.com/v1beta/models/<m or the default>:generateContent?key=<k>`,
the inbound body, and the single header `Content-Type: application/json`; it is the one
outbound call attempted.  When `http.NewRequest` rejects that method and URL, no
outbound call is attempted. -/
theorem HandleGeminiProxy_outbound (env : Env) (r : Request) (world : World) (k m : String)
    (hk : env.Getenv "GEMINI_API_KEY" = k) (hne : k ≠ "") (hm : r.URL.QueryGet "model" = m) :
    (env.validRequest r.Method
        ("https://generativelanguage.googleapis.com/v1beta/models/"
          ++ (if m = "" then "gemini-3-pro-preview" else m) ++ ":generateContent?key=" ++ k)
        = true →
      ∃ q : ProxyRequest,
        (HandleGeminiProxy env r world).2.outbound = world.outbound ++ [q]
        ∧ q.URL = "https://generativelanguage.googleapis.com/v1beta/models/"
            ++ (if m = "" then "gemini-3-pro-preview" else m) ++ ":generateContent?key=" ++ k
        ∧ q.Method = r.Method
        ∧ q.Body = r.Body
        ∧ q.Header "Content-Type" = some ["application/json"]
        ∧ ∀ name : String, name ≠ "Content-Type" → q.Header name = none)
    ∧ (env.validRequest r.Method
        ("https://generativelanguage.googleapis.com/v1beta/models/"
          ++ (if m = "" then "gemini-3-pro-preview" else m) ++ ":generateContent?key=" ++ k)
        = false →
      (HandleGeminiProxy env r world).2.outbound = world.outbound) := by
  subst hk hm
  constructor
  · intro hvalid
    refine ⟨{ Method := r.Method,
              URL := "https://generativelanguage.googleapis.com/v1beta/models/"
                ++ (if r.URL.QueryGet "model" = "" then "gemini-3-pro-preview"
                    else r.URL.QueryGet "model")
                ++ ":generateContent?key=" ++ env.Getenv "GEMINI_API_KEY",
              Body := r.Body,
              Header := Header.Set Header.empty "Content-Type" "application/json" },
            ?_, rfl, rfl, rfl, ?_, ?_⟩
    · simp only [HandleGeminiProxy, hne, if_false, http.NewRequest, hvalid, if_true]
      cases env.Do _ <;> rfl
    · simp [Header.Set, Header.assign]
    · intro name hname
      simp [Header.Set, Header.assign, Header.empty, hname]
  · intro hinvalid
    simp [HandleGeminiProxy, hne, http.NewRequest, hinvalid]

/-- C8 at a concrete request without a `model` parameter. -/
theorem HandleGeminiProxy_outbound_witness :
    ∃ q : ProxyRequest,
      (HandleGeminiProxy sampleEnv sampleRequest World.initial).2.outbound
        = World.initial.outbound ++ [q]
      ∧ q.URL = "https://generativelanguage.googleapis.com/v1beta/models/"
          ++ (if "" = "" then "gemini-3-pro-preview" else "") ++ ":generateContent?key=" ++ "k1"
      ∧ q.Method = "POST"
      ∧ q.Body = "ping"
      ∧ q.Header "Content-Type" = some ["application/json"]
      ∧ ∀ name : String, name ≠ "Content-Type" → q.Header name = none :=
  (HandleGeminiProxy_outbound sampleEnv sampleRequest World.initial "k1" "" rfl (by decide)
    rfl).1 rfl

/-! ## C4: the upstream response is passed through -/

theorem ResponseWriter.run_assign (H : List (String × List String)) :
    ∀ w : ResponseWriter, (H.map Prod.fst).Nodup →
      (ResponseWriter.run w (H.map (fun kv => Call.HeaderAssign kv.1 kv.2))).2 = false
      ∧ (ResponseWriter.run w (H.map (fun kv => Call.HeaderAssign kv.1 kv.2))).1.status
          = w.status
      ∧ (ResponseWriter.run w (H.map (fun kv => Call.HeaderAssign kv.1 kv.2))).1.sent = w.sent
      ∧ (ResponseWriter.run w (H.map (fun kv => Call.HeaderAssign kv.1 kv.2))).1.body = w.body
      ∧ ∀ k : String,
          (ResponseWriter.run w (H.map (fun kv => Call.HeaderAssign kv.1 kv.2))).1.header k
            = match H.lookup k with
              | some vs => some vs
              | none => w.header k := by
  induction H with
  | nil => intro w _; simp [ResponseWriter.run]
  | cons kv rest ih =>
    intro w hnd
    obtain ⟨k0, v0⟩ := kv
    simp only [List.map_cons, List.nodup_cons] at hnd
    obtain ⟨hnot, hrest⟩ := hnd
    have hcall : ResponseWriter.call w (Call.HeaderAssign k0 v0)
        = some { w with header := Header.assign w.header k0 v0 } := rfl
    simp only [List.map_cons, ResponseWriter.run_cons_some w _ _ _ hcall]
    obtain ⟨h0, h1, h2, h3, h4⟩ := ih { w with header := Header.assign w.header k0 v0 } hrest
    refine ⟨h0, by rw [h1], by rw [h2], by rw [h3], ?_⟩
    intro k
    rw [h4 k]
    by_cases hk : k = k0
    · subst hk
      have hnone : rest.lookup k = none := by
        rw [List.lookup_eq_none_iff]
        intro p hp
        have hne : k ≠ p.1 := by
          intro hpk
          apply hnot
          simp only [List.mem_map]
          exact ⟨p, hp, hpk.symm⟩
        simpa using hne
      simp [hnone, List.lookup, Header.assign]
    · have hbeq : (k == k0) = false := by simpa using hk
      simp [List.lookup, hbeq, Header.assign, hk]

/-- C4, as stated, fails.  After the CORS middleware of `main` has set `Vary: Origin`,
the handler of a successful proxied call hands that header to the server although the
upstream response does not have it; on a writer that has already sent status 204,
neither the upstream status 200 nor the upstream header is sent; and for an upstream
response with status 99 the call `WriteHeader(99)` panics, the handler writes no body,
and `middleware.Recoverer` answers 500. -/
theorem HandleGeminiProxy_keeps_earlier_header :
    corsWriter.status = none
    ∧ (HandleGeminiProxy upstreamEnv sampleRequest World.initial).1
        = [.HeaderAssign "Content-Type" ["application/json"], .WriteHeader 200, .Write "[]"]
    ∧ (ResponseWriter.respond corsWriter
        (HandleGeminiProxy upstreamEnv sampleRequest World.initial).1).sent "Vary"
        = some ["Origin"]
    ∧ upstreamOK.Header.lookup "Vary" = none
    ∧ (ResponseWriter.respond corsWriter
        (HandleGeminiProxy upstreamEnv sampleRequest World.initial).1).sent "Vary"
        ≠ upstreamOK.Header.lookup "Vary"
    ∧ (ResponseWriter.respond sentWriter
        (HandleGeminiProxy upstreamEnv sampleRequest World.initial).1).status = some 204
    ∧ (ResponseWriter.respond sentWriter
        (HandleGeminiProxy upstreamEnv sampleRequest World.initial).1).sent "Content-Type"
        = none
    ∧ (HandleGeminiProxy oddEnv sampleRequest World.initial).1
        = [.HeaderAssign "Content-Type" ["application/json"], .WriteHeader 99, .Write "[]"]
    ∧ (ResponseWriter.respond ResponseWriter.fresh
        (HandleGeminiProxy oddEnv sampleRequest World.initial).1).status = some 500
    ∧ (ResponseWriter.respond ResponseWriter.fresh
        (HandleGeminiProxy oddEnv sampleRequest World.initial).1).body = "" := by
  refine ⟨rfl, rfl, ?_, ?_, ?_, ?_, ?_, rfl, ?_, ?_⟩ <;> decide

/-- C4, amended. When the outbound call returns a response (status `s`, header map
`H` with one entry per key, body `b`), `s` is a code that `WriteHeader` accepts as the
status of a response (101 or 200..999), the body is empty when `s` allows none, and
the client's writer has sent no status yet, the handler makes exactly these calls on
the writer: one assignment per header of `H`, then `WriteHeader(s)`, then `Write(b)`.
So the status sent is `s`; the header map handed to the server with it holds every
header of `H` with exactly its values and still holds what was set on the writer before
under the names that `H` does not have; and the bytes written are those written before
followed by `b`.  Nothing is stated about other headers, such as those that the server
adds on the wire. -/
theorem HandleGeminiProxy_passthrough (env : Env) (r : Request) (world : World)
    (w : ResponseWriter) (q : ProxyRequest) (resp : Response)
    (hw : w.status = none)
    (hkeys : (resp.Header.map Prod.fst).Nodup)
    (hcode : finalCode resp.StatusCode = true)
    (hbody : bodyAllowedForStatus resp.StatusCode = true ∨ resp.Body = "")
    (hkey : env.Getenv "GEMINI_API_KEY" ≠ "")
    (hreq : http.NewRequest env r.Method
        ("https://generativelanguage.googleapis.com/v1beta/models/"
          ++ (if r.URL.QueryGet "model" = "" then "gemini-3-pro-preview"
              else r.URL.QueryGet "model")
          ++ ":generateContent?key=" ++ env.Getenv "GEMINI_API_KEY") r.Body = some q)
    (hdo : env.Do { q with Header := Header.Set q.Header "Content-Type" "application/json" }
        = some resp) :
    (HandleGeminiProxy env r world).1
      = resp.Header.map (fun kv => Call.HeaderAssign kv.1 kv.2)
        ++ [.WriteHeader resp.StatusCode, .Write resp.Body]
    ∧ (ResponseWriter.respond w (HandleGeminiProxy env r world).1).status
        = some resp.StatusCode
    ∧ (∀ (k : String) (vs : List String), resp.Header.lookup k = some vs →
        (ResponseWriter.respond w (HandleGeminiProxy env r world).1).sent k = some vs)
    ∧ (∀ (k : String) (vs : List String), resp.Header.lookup k = none →
        w.header k = some vs →
        (ResponseWriter.respond w (HandleGeminiProxy env r world).1).sent k = some vs)
    ∧ (ResponseWriter.respond w (HandleGeminiProxy env r world).1).body
        = w.body ++ resp.Body := by
  have hcalls : (HandleGeminiProxy env r world).1
      = resp.Header.map (fun kv => Call.HeaderAssign kv.1 kv.2)
        ++ [.WriteHeader resp.StatusCode, .Write resp.Body] := by
    simp only [HandleGeminiProxy, hkey, if_false, hreq, hdo]
  simp only [finalCode, Bool.and_eq_true, Bool.not_eq_true'] at hcode
  obtain ⟨hv, hi⟩ := hcode
  obtain ⟨h0, h1, _, h3, h4⟩ := ResponseWriter.run_assign resp.Header w hkeys
  have hst : (ResponseWriter.run w
      (resp.Header.map (fun kv => Call.HeaderAssign kv.1 kv.2))).1.status = none := by
    rw [h1, hw]
  have hsent : (ResponseWriter.send (ResponseWriter.run w
      (resp.Header.map (fun kv => Call.HeaderAssign kv.1 kv.2))).1 resp.StatusCode).status
        = some resp.StatusCode := by
    simp [ResponseWriter.send, hst]
  have hrun : ResponseWriter.respond w (HandleGeminiProxy env r world).1
      = ResponseWriter.Write (ResponseWriter.send (ResponseWriter.run w
          (resp.Header.map (fun kv => Call.HeaderAssign kv.1 kv.2))).1 resp.StatusCode)
          resp.Body := by
    have hws : (ResponseWriter.Write (ResponseWriter.send (ResponseWriter.run w
          (resp.Header.map (fun kv => Call.HeaderAssign kv.1 kv.2))).1 resp.StatusCode)
          resp.Body).status = some resp.StatusCode := by
      rw [ResponseWriter.Write_of_sent _ _ _ hsent]
      split <;> exact hsent
    rw [hcalls, ResponseWriter.respond_eq, ResponseWriter.run_append _ _ w h0]
    simp only [ResponseWriter.run, ResponseWriter.call, ResponseWriter.WriteHeader, hst, hv, hi,
      if_true, Bool.false_eq_true, if_false, ResponseWriter.finishRequest]
    exact ResponseWriter.send_of_sent _ _ _ hws
  have hall : ∀ k : String,
      (ResponseWriter.respond w (HandleGeminiProxy env r world).1).sent k
        = match resp.Header.lookup k with
          | some vs => some vs
          | none => w.header k := by
    intro k
    rw [hrun, ← h4 k, ResponseWriter.Write_of_sent _ _ _ hsent]
    split <;> simp [ResponseWriter.send, hst]
  refine ⟨hcalls, ?_, ?_, ?_, ?_⟩
  · rw [hrun, ResponseWriter.Write_of_sent _ _ _ hsent]
    split <;> exact hsent
  · intro k vs hk
    rw [hall k, hk]
  · intro k vs hk hwk
    rw [hall k, hk]
    exact hwk
  · rw [hrun, ResponseWriter.Write_of_sent _ _ _ hsent, ← h3]
    cases hbody with
    | inl hallowed => simp [hallowed, ResponseWriter.send, hst]
    | inr hempty => split <;> simp [hempty, ResponseWriter.send, hst]

/-- C4, amended, at a concrete upstream response and the writer prepared by CORS. -/
theorem HandleGeminiProxy_passthrough_witness :
    (ResponseWriter.respond corsWriter
      (HandleGeminiProxy upstreamEnv sampleRequest World.initial).1).status = some 200
    ∧ (ResponseWriter.respond corsWriter
      (HandleGeminiProxy upstreamEnv sampleRequest World.initial).1).body = "" ++ "[]" :=
  have h := HandleGeminiProxy_passthrough upstreamEnv sampleRequest World.initial corsWriter
    _ upstreamOK rfl (by decide) (by decide) (Or.inl (by decide)) (by decide) rfl rfl
  ⟨h.2.1, h.2.2.2.2⟩

/-! ## C7: the usage log entry -/

theorem responseWriter.capture_cons (rw : responseWriter) (c : Call) (cs : List Call) :
    responseWriter.serve rw (c :: cs) = responseWriter.serve (responseWriter.call rw c) cs := rfl

/-- The wrapper passes every call on to the embedded writer, in order. -/
theorem responseWriter.serve_forwards (cs : List Call) :
    ∀ rw : responseWriter,
      (responseWriter.serve rw cs).ResponseWriter = rw.ResponseWriter ++ cs := by
  induction cs with
  | nil => intro rw; simp [responseWriter.serve]
  | cons c cs ih =>
    intro rw
    rw [responseWriter.capture_cons, ih]
    cases c <;> simp [responseWriter.call, responseWriter.WriteHeader]

/-- The captured status is the code of the last explicit `WriteHeader`, if there is one. -/
theorem responseWriter.serve_statusCode (cs : List Call) :
    ∀ rw : responseWriter,
      (responseWriter.serve rw cs).statusCode = (lastWriteHeader cs).getD rw.statusCode := by
  induction cs with
  | nil => intro rw; simp [responseWriter.serve, lastWriteHeader]
  | cons c cs ih =>
    intro rw
    rw [responseWriter.capture_cons, ih]
    cases c with
    | WriteHeader code =>
      cases h : lastWriteHeader cs <;>
        simp [responseWriter.call, responseWriter.WriteHeader, lastWriteHeader, h]
    | HeaderSet k v => simp [responseWriter.call, lastWriteHeader]
    | HeaderAssign k vs => simp [responseWriter.call, lastWriteHeader]
    | Write p => simp [responseWriter.call, lastWriteHeader]

theorem lastWriteHeader_of_all_not (cs : List Call)
    (h : cs.all (fun c => !c.isWriteHeader) = true) : lastWriteHeader cs = none := by
  induction cs with
  | nil => rfl
  | cons c cs ih =>
    simp only [List.all_cons, Bool.and_eq_true] at h
    cases c with
    | WriteHeader code => simp [Call.isWriteHeader] at h
    | HeaderSet k v => simpa [lastWriteHeader] using ih h.2
    | HeaderAssign k vs => simpa [lastWriteHeader] using ih h.2
    | Write p => simpa [lastWriteHeader] using ih h.2

/-- For a handler that sends the status once, on a writer that has sent no status: no
call panics, and the status sent is the one the handler set, or 200. -/
theorem headerOnce_respond_status (cs : List Call) :
    ∀ w : ResponseWriter, w.status = none → headerOnce cs = true →
      cs.all Call.fixesStatus = true →
      (ResponseWriter.run w cs).2 = false
      ∧ (ResponseWriter.respond w cs).status = some ((lastWriteHeader cs).getD 200) := by
  induction cs with
  | nil =>
    intro w hw _ _
    simp [ResponseWriter.respond, ResponseWriter.finishRequest, ResponseWriter.run,
      ResponseWriter.send, hw, lastWriteHeader]
  | cons c cs ih =>
    intro w hw hcs hall
    simp only [List.all_cons, Bool.and_eq_true] at hall
    obtain ⟨hc, hrest⟩ := hall
    cases c with
    | WriteHeader code =>
      simp only [headerOnce, Call.sendsStatus, if_true] at hcs
      simp only [Call.fixesStatus, finalCode, Bool.and_eq_true, Bool.not_eq_true'] at hc
      obtain ⟨hv, hi⟩ := hc
      have hcall : ResponseWriter.call w (Call.WriteHeader code)
          = some (ResponseWriter.send w code) := by
        simp [ResponseWriter.call, ResponseWriter.WriteHeader, hw, hv, hi]
      have hst : (ResponseWriter.send w code).status = some code := by
        simp [ResponseWriter.send, hw]
      obtain ⟨h1, h2⟩ := ResponseWriter.run_of_sent cs _ code hst
      rw [ResponseWriter.respond_eq, ResponseWriter.run_cons_some w _ _ cs hcall]
      refine ⟨h1, ?_⟩
      rw [h1]
      simp only [Bool.false_eq_true, if_false, ResponseWriter.finishRequest,
        ResponseWriter.send_of_sent _ _ _ h2, h2]
      simp [lastWriteHeader, lastWriteHeader_of_all_not cs hcs]
    | Write p =>
      simp only [headerOnce, Call.sendsStatus, if_true] at hcs
      have hcall : ResponseWriter.call w (Call.Write p) = some (ResponseWriter.Write w p) := rfl
      have hst : (ResponseWriter.Write w p).status = some 200 := by
        rw [ResponseWriter.Write_of_none w p hw]
      obtain ⟨h1, h2⟩ := ResponseWriter.run_of_sent cs _ 200 hst
      rw [ResponseWriter.respond_eq, ResponseWriter.run_cons_some w _ _ cs hcall]
      refine ⟨h1, ?_⟩
      rw [h1]
      simp only [Bool.false_eq_true, if_false, ResponseWriter.finishRequest,
        ResponseWriter.send_of_sent _ _ _ h2, h2]
      simp [lastWriteHeader, lastWriteHeader_of_all_not cs hcs]
    | HeaderSet k v =>
      simp only [headerOnce, Call.sendsStatus] at hcs
      have hcall : ResponseWriter.call w (Call.HeaderSet k v)
          = some { w with header := Header.Set w.header k v } := rfl
      have := ih { w with header := Header.Set w.header k v } hw (by simpa using hcs) hrest
      rw [ResponseWriter.respond_eq, ResponseWriter.run_cons_some w _ _ cs hcall]
      rw [ResponseWriter.respond_eq] at this
      simpa [lastWriteHeader] using this
    | HeaderAssign k vs =>
      simp only [headerOnce, Call.sendsStatus] at hcs
      have hcall : ResponseWriter.call w (Call.HeaderAssign k vs)
          = some { w with header := Header.assign w.header k vs } := rfl
      have := ih { w with header := Header.assign w.header k vs } hw (by simpa using hcs) hrest
      rw [ResponseWriter.respond_eq, ResponseWriter.run_cons_some w _ _ cs hcall]
      rw [ResponseWriter.respond_eq] at this
      simpa [lastWriteHeader] using this

/-- A handler that sends the status once does not panic. -/
theorem sendsHeaderOnce_not_aborts (cs : List Call) (h : sendsHeaderOnce cs = true) :
    aborts cs = false := by
  simp only [sendsHeaderOnce, Bool.and_eq_true] at h
  exact (headerOnce_respond_status cs ResponseWriter.fresh rfl h.1 h.2).1

theorem headerOnce_assign_append (H : List (String × List String)) (cs : List Call) :
    headerOnce (H.map (fun kv => Call.HeaderAssign kv.1 kv.2) ++ cs) = headerOnce cs := by
  induction H with
  | nil => rfl
  | cons kv rest ih => simpa [headerOnce, Call.sendsStatus] using ih

/-- The forwarding handler sends the status once, provided the status of every upstream
response is a code that `WriteHeader` accepts as the status of a response. -/
theorem HandleGeminiProxy_sendsHeaderOnce (env : Env) (r : Request) (world : World)
    (hdo : ∀ q resp, env.Do q = some resp → finalCode resp.StatusCode = true) :
    sendsHeaderOnce (HandleGeminiProxy env r world).1 = true := by
  have h500 : finalCode 500 = true := by decide
  have h502 : finalCode 502 = true := by decide
  unfold HandleGeminiProxy
  by_cases hkey : env.Getenv "GEMINI_API_KEY" = ""
  · simp [hkey, http.Error, sendsHeaderOnce, headerOnce, Call.sendsStatus, Call.isWriteHeader,
      Call.fixesStatus, h500]
  · simp only [hkey, if_false]
    cases http.NewRequest env r.Method _ r.Body with
    | none =>
      simp [http.Error, sendsHeaderOnce, headerOnce, Call.sendsStatus, Call.isWriteHeader,
        Call.fixesStatus, h500]
    | some q =>
      simp only
      cases hresp : env.Do _ with
      | none =>
        simp [http.Error, sendsHeaderOnce, headerOnce, Call.sendsStatus, Call.isWriteHeader,
          Call.fixesStatus, h502]
      | some resp =>
        have hfin := hdo _ resp hresp
        simp only [sendsHeaderOnce, headerOnce_assign_append]
        simp [headerOnce, Call.sendsStatus, Call.isWriteHeader, Call.fixesStatus, hfin]
        intro x k vs _ hx
        rw [← hx]

/-- The logger passes the calls of the downstream handler on to its own writer. -/
theorem NeonDB.Middleware_forwards (d : NeonDB) (next : Handler) (env : Env) (r : Request)
    (world : World) :
    (NeonDB.Middleware d next env r world).1 = (next env r world).1 := by
  unfold NeonDB.Middleware
  by_cases hab : aborts (next env r world).1 = true <;> cases d.db <;>
    simp [hab, responseWriter.serve_forwards, NewResponseWriter]

/-- C7, as stated, fails.  A handler that has started the body (the status sent is 200)
and then calls `http.Error` with 500 is logged with status 500.  And when the upstream
status is 99, `HandleGeminiProxy` panics in `WriteHeader`: no entry is submitted, and
`middleware.Recoverer` answers 500. -/
theorem NeonDB.Middleware_logs_superfluous_status :
    (NeonDB.Middleware ⟨some {}⟩ streamThenFail sampleEnv (userRequest "user_1")
        World.initial).2.logs
      = [{ user_id := "user_1", endpoint := "/api/generate-content", status_code := 500,
           created_at := 0 }]
    ∧ (ResponseWriter.respond ResponseWriter.fresh
        (NeonDB.Middleware ⟨some {}⟩ streamThenFail sampleEnv (userRequest "user_1")
          World.initial).1).status = some 200
    ∧ (NeonDB.Middleware ⟨some {}⟩ HandleGeminiProxy oddEnv (userRequest "user_1")
        World.initial).2.logs = []
    ∧ (ResponseWriter.respond ResponseWriter.fresh
        (NeonDB.Middleware ⟨some {}⟩ HandleGeminiProxy oddEnv (userRequest "user_1")
          World.initial).1).status = some 500 := by
  refine ⟨?_, ?_, ?_, ?_⟩ <;> decide

/-- C7, amended. The logger passes the calls of the downstream handler on unchanged.
For a downstream handler that sends the status once (it calls `WriteHeader` at most
once, not after a `Write`, and with a code accepted as the status of a response, so
that no call panics) and a configured log store, the logger submits exactly one entry
after whatever the handler logged itself, holding the string identity of the request
context (empty when there is none), the URL path, the clock at entry, and the status
code the handler set (200 when it set none), which is the status sent to the client on
a writer that had sent none.  Without a log store (as `NewNeonDB` leaves it when no
database URL is configured) no entry is submitted.  `HandleGeminiProxy` sends the
status once whenever the status of the upstream response is such a code. -/
theorem NeonDB.Middleware_logs (d : NeonDB) (next : Handler) (env : Env) (r : Request)
    (world : World) :
    (NeonDB.Middleware d next env r world).1 = (next env r world).1
    ∧ (sendsHeaderOnce (next env r world).1 = true →
        ∀ db : SqlDB, d.db = some db →
          (NeonDB.Middleware d next env r world).2
            = { (next env r world).2 with
                logs := (next env r world).2.logs ++
                  [{ user_id := match r.ctx.Value "user_id" with
                       | some (.str s) => s
                       | _ => "",
                     endpoint := r.URL.Path,
                     status_code := (lastWriteHeader (next env r world).1).getD 200,
                     created_at := env.now }] }
          ∧ ∀ w : ResponseWriter, w.status = none →
              (ResponseWriter.respond w (NeonDB.Middleware d next env r world).1).status
                = some ((lastWriteHeader (next env r world).1).getD 200))
    ∧ (d.db = none → (NeonDB.Middleware d next env r world).2 = (next env r world).2)
    ∧ (∀ (Getenv : String → String) (sqlOpen : String → Option SqlDB),
        Getenv "DATABASE_URL" = "" →
        (NeonDB.Middleware (NewNeonDB Getenv sqlOpen) next env r world).2
          = (next env r world).2)
    ∧ ((∀ q resp, env.Do q = some resp → finalCode resp.StatusCode = true) →
        sendsHeaderOnce (HandleGeminiProxy env r world).1 = true) := by
  have hcalls := NeonDB.Middleware_forwards d next env r world
  refine ⟨hcalls, ?_, ?_, ?_, HandleGeminiProxy_sendsHeaderOnce env r world⟩
  · intro honce db hdb
    have hab := sendsHeaderOnce_not_aborts _ honce
    simp only [sendsHeaderOnce, Bool.and_eq_true] at honce
    constructor
    · unfold NeonDB.Middleware
      simp [hdb, hab, responseWriter.serve_statusCode, NewResponseWriter]
    · intro w hw
      rw [hcalls]
      exact (headerOnce_respond_status _ w hw honce.1 honce.2).2
  · intro hdb
    unfold NeonDB.Middleware
    by_cases hab : aborts (next env r world).1 = true <;>
      simp [hab, hdb, responseWriter.serve_forwards, NewResponseWriter]
  · intro Getenv sqlOpen hurl
    unfold NeonDB.Middleware
    by_cases hab : aborts (next env r world).1 = true <;>
      simp [hab, NewNeonDB, hurl, responseWriter.serve_forwards, NewResponseWriter]

/-- C7, amended, at the forwarding handler of `main` with an upstream answer 200. -/
theorem NeonDB.Middleware_logs_witness :
    (NeonDB.Middleware ⟨some {}⟩ HandleGeminiProxy upstreamEnv (userRequest "user_1")
        World.initial).2.logs
      = [{ user_id := "user_1", endpoint := "/api/generate-content", status_code := 200,
           created_at := 0 }]
    ∧ (ResponseWriter.respond ResponseWriter.fresh
        (NeonDB.Middleware ⟨some {}⟩ HandleGeminiProxy upstreamEnv (userRequest "user_1")
          World.initial).1).status = some 200 :=
  have h := (NeonDB.Middleware_logs ⟨some {}⟩ HandleGeminiProxy upstreamEnv
    (userRequest "user_1") World.initial).2.1 (by decide) {} rfl
  ⟨by rw [h.1]; decide, h.2 ResponseWriter.fresh rfl⟩

/-! ## C9: the limiter is entered with a verified identity only -/

/-- C9. In the protected route the limiter stands directly behind the identity
verifier.  Without session claims the verifier answers alone: its answer is the same
whatever handler stands in the limiter's place.  With session claims the verifier's
handler is its next handler applied to a request whose context holds the string
`user_id` equal to the subject of the claims; so the limiter, when it has a client,
runs its counting branch on the key `"ratelimit:" ++ subject`, and what it writes
itself is never its `Unauthorized` answer. -/
theorem RedisLimiter.entered_with_identity (c : ClerkAuth) (l : RedisLimiter) (next : Handler)
    (env : Env) (r : Request) (world : World) :
    (sessionOf env r = none →
      ∀ h : Handler,
        c.Middleware h env r world = c.Middleware (l.Middleware next) env r world)
    ∧ (∀ claims : SessionClaims, sessionOf env r = some claims →
        ∃ r' : Request,
          r'.ctx.Value "user_id" = some (.str claims.Subject)
          ∧ (∀ h : Handler, c.Middleware h env r world = h env r' world)
          ∧ c.Middleware (l.Middleware next) env r world = l.Middleware next env r' world
          ∧ (∀ cl : RedisClient, l.client = some cl →
              l.Middleware next env r' world
                = match Incr env ("ratelimit:" ++ claims.Subject) world.redis with
                  | none => next env r' world
                  | some (count, store1) =>
                    if count > 10 then
                      (.HeaderSet "Retry-After" "60" :: http.Error "Too Many Requests" 429,
                        { world with
                          redis := if count = 1 then
                              Expire env ("ratelimit:" ++ claims.Subject) 60 store1
                            else store1 })
                    else
                      next env r'
                        { world with
                          redis := if count = 1 then
                              Expire env ("ratelimit:" ++ claims.Subject) 60 store1
                            else store1 })
          ∧ (l.Middleware pass env r' world).1 ≠ http.Error "Unauthorized" 401) := by
  constructor
  · intro hnone h
    unfold sessionOf at hnone
    unfold ClerkAuth.Middleware WithHeaderAuthorization
    cases hv : env.verify r with
    | rejected => rfl
    | unchanged =>
      rw [hv] at hnone
      simp only at hnone
      simp [hnone]
    | verified claims =>
      rw [hv] at hnone
      simp at hnone
  · intro claims hsome
    have key : ∀ r' : Request, r'.ctx.Value "user_id" = some (.str claims.Subject) →
        (∀ cl : RedisClient, l.client = some cl →
          l.Middleware next env r' world
            = match Incr env ("ratelimit:" ++ claims.Subject) world.redis with
              | none => next env r' world
              | some (count, store1) =>
                if count > 10 then
                  (.HeaderSet "Retry-After" "60" :: http.Error "Too Many Requests" 429,
                    { world with
                      redis := if count = 1 then
                          Expire env ("ratelimit:" ++ claims.Subject) 60 store1
                        else store1 })
                else
                  next env r'
                    { world with
                      redis := if count = 1 then
                          Expire env ("ratelimit:" ++ claims.Subject) 60 store1
                        else store1 })
        ∧ (l.Middleware pass env r' world).1 ≠ http.Error "Unauthorized" 401 := by
      intro r' hr'
      constructor
      · intro cl hcl
        unfold RedisLimiter.Middleware
        simp only [hcl, hr']
      · unfold RedisLimiter.Middleware
        cases l.client with
        | none => simp [pass, http.Error]
        | some cl =>
          simp only [hr']
          cases Incr env ("ratelimit:" ++ claims.Subject) world.redis with
          | none => simp [pass, http.Error]
          | some p =>
            simp only
            split <;> simp [pass, http.Error]
    unfold sessionOf at hsome
    cases hv : env.verify r with
    | rejected =>
      rw [hv] at hsome
      simp at hsome
    | unchanged =>
      rw [hv] at hsome
      simp only at hsome
      refine ⟨r.WithContext (r.ctx.WithValue "user_id" (.str claims.Subject)), ?_, ?_, ?_, ?_⟩
      · simp [Request.WithContext, Context.Value, Context.WithValue]
      · intro h
        simp [ClerkAuth.Middleware, WithHeaderAuthorization, hv, hsome]
      · simp [ClerkAuth.Middleware, WithHeaderAuthorization, hv, hsome]
      · exact key _ (by simp [Request.WithContext, Context.Value, Context.WithValue])
    | verified cs =>
      rw [hv] at hsome
      simp only [Option.some.injEq] at hsome
      subst hsome
      refine ⟨(r.WithContext (r.ctx.WithSessionClaims cs)).WithContext
          ((r.WithContext (r.ctx.WithSessionClaims cs)).ctx.WithValue "user_id"
            (.str cs.Subject)), ?_, ?_, ?_, ?_⟩
      · simp [Request.WithContext, Context.Value, Context.WithValue]
      · intro h
        simp [ClerkAuth.Middleware, WithHeaderAuthorization, hv, SessionClaimsFromContext,
          Request.WithContext, Context.WithSessionClaims]
      · simp [ClerkAuth.Middleware, WithHeaderAuthorization, hv, SessionClaimsFromContext,
          Request.WithContext, Context.WithSessionClaims]
      · exact key _ (by simp [Request.WithContext, Context.Value, Context.WithValue])

/-! ## C2: ten requests per window -/

theorem serveAll_append (h : Handler) (pre : List Arrival) :
    ∀ (w : World) (rest : List Arrival),
      (serveAll h w (pre ++ rest)).2 = (serveAll h (serveAll h w pre).2 rest).2 := by
  induction pre with
  | nil => intro w rest; rfl
  | cons a pre ih => intro w rest; simp [serveAll, ih]

theorem keyKept_append (h : Handler) (key : String) (pre : List Arrival) :
    ∀ (w : World) (rest : List Arrival),
      keyKept h key w (pre ++ rest)
        = (keyKept h key w pre && keyKept h key (serveAll h w pre).2 rest) := by
  induction pre with
  | nil => intro w rest; simp [keyKept, serveAll]
  | cons a pre ih => intro w rest; simp [keyKept, serveAll, ih, Bool.and_assoc]

/-- The limiter's own answer to a request over the limit, on a writer that has sent
nothing: status 429 with the header `Retry-After: 60`. -/
theorem tooManyRequests_respond (w : ResponseWriter) (hw : w.status = none) :
    (ResponseWriter.respond w
      (.HeaderSet "Retry-After" "60" :: http.Error "Too Many Requests" 429)).status = some 429
    ∧ (ResponseWriter.respond w
      (.HeaderSet "Retry-After" "60" :: http.Error "Too Many Requests" 429)).sent "Retry-After"
        = some ["60"] := by
  have hv : validCode 429 = true := by decide
  have hi : informational 429 = false := by decide
  have hb : bodyAllowedForStatus 429 = true := by decide
  constructor
  · simp [ResponseWriter.respond, ResponseWriter.finishRequest, ResponseWriter.run, http.Error,
      ResponseWriter.call, ResponseWriter.WriteHeader, ResponseWriter.Write,
      ResponseWriter.send, hw, hv, hi, hb]
  · simp [ResponseWriter.respond, ResponseWriter.finishRequest, ResponseWriter.run, http.Error,
      ResponseWriter.call, ResponseWriter.WriteHeader, ResponseWriter.Write,
      ResponseWriter.send, hw, hv, hi, hb, Header.Set, Header.assign]

/-- One request of an identity whose counter stands at `n` and is live: the counter
goes to `n + 1`, every other key is untouched, and the request is handed to the next
handler when `n + 1 ≤ 10` and answered by the limiter otherwise. -/
theorem RedisLimiter.Middleware_counts (l : RedisLimiter) (cl : RedisClient) (env : Env)
    (r : Request) (world : World) (u : String) (n : Nat)
    (hclient : l.client = some cl)
    (hu : r.ctx.Value "user_id" = some (.str u))
    (hok : env.incrFails = false)
    (hcount : countIs world.redis ("ratelimit:" ++ u) n)
    (hlive : ∀ e, world.redis ("ratelimit:" ++ u) = some e → e.live env.now = true) :
    ∃ store : Store,
      (∃ e, store ("ratelimit:" ++ u) = some e ∧ e.value = (n : Int) + 1)
      ∧ (∀ k : String, k ≠ "ratelimit:" ++ u → store k = world.redis k)
      ∧ ∀ next : Handler, l.Middleware next env r world
          = if n + 1 ≤ 10 then next env r { world with redis := store }
            else (.HeaderSet "Retry-After" "60" :: http.Error "Too Many Requests" 429,
                  { world with redis := store }) := by
  unfold countIs at hcount
  cases hentry : world.redis ("ratelimit:" ++ u) with
  | none =>
    rw [hentry] at hcount
    simp only at hcount
    subst hcount
    have hget : Store.get world.redis env.now ("ratelimit:" ++ u) = none := by
      simp [Store.get, hentry]
    refine ⟨Expire env ("ratelimit:" ++ u) 60
        (Store.put world.redis ("ratelimit:" ++ u) { value := 1, expireAt := none }), ?_, ?_, ?_⟩
    · cases hexp : env.expireFails <;>
        simp [Expire, hexp, Store.get, Store.put, RedisEntry.live]
    · intro k hk
      cases hexp : env.expireFails <;>
        simp [Expire, hexp, Store.get, Store.put, RedisEntry.live, hk]
    · intro next
      simp [RedisLimiter.Middleware, hclient, hu, Incr, hok, hget]
  | some e =>
    rw [hentry] at hcount
    simp only at hcount
    obtain ⟨hval, hpos⟩ := hcount
    have hget : Store.get world.redis env.now ("ratelimit:" ++ u) = some e := by
      simp [Store.get, hentry, hlive e hentry]
    have hne : ¬ (e.value + 1 = 1) := by omega
    refine ⟨Store.put world.redis ("ratelimit:" ++ u) { e with value := e.value + 1 },
      ?_, ?_, ?_⟩
    · simp [Store.put, hval]
    · intro k hk
      simp [Store.put, hk]
    · intro next
      by_cases hle : n + 1 ≤ 10
      · have hgt : ¬ (e.value + 1 > 10) := by omega
        simp [RedisLimiter.Middleware, hclient, hu, Incr, hok, hget, hne, hgt, hle]
      · have hgt : e.value + 1 > 10 := by omega
        simp [RedisLimiter.Middleware, hclient, hu, Incr, hok, hget, hne, hgt, hle]

/-- After the limiter has served `pre`, the counter has advanced by its length. -/
theorem RedisLimiter.serveAll_counts (l : RedisLimiter) (cl : RedisClient) (next : Handler)
    (u : String) (hclient : l.client = some cl)
    (hnext : ∀ env r w, (next env r w).2.redis = w.redis) (pre : List Arrival) :
    ∀ (world : World) (n : Nat),
      countIs world.redis ("ratelimit:" ++ u) n →
      (∀ b ∈ pre, b.req.ctx.Value "user_id" = some (.str u)) →
      (∀ b ∈ pre, b.env.incrFails = false) →
      keyKept (l.Middleware next) ("ratelimit:" ++ u) world pre = true →
      countIs (serveAll (l.Middleware next) world pre).2.redis ("ratelimit:" ++ u)
        (n + pre.length) := by
  induction pre with
  | nil => intro world n hcount _ _ _; simpa [serveAll] using hcount
  | cons a pre ih =>
    intro world n hcount hu hok hkept
    simp only [keyKept, Bool.and_eq_true] at hkept
    obtain ⟨hlive0, hkept1⟩ := hkept
    have hlive : ∀ e, world.redis ("ratelimit:" ++ u) = some e → e.live a.env.now = true := by
      intro e he
      rw [he] at hlive0
      exact hlive0
    obtain ⟨store, ⟨e, he, hval⟩, _, hstep⟩ :=
      RedisLimiter.Middleware_counts l cl a.env a.req world u n hclient
        (hu a (List.mem_cons_self _ _)) (hok a (List.mem_cons_self _ _)) hcount hlive
    have hredis : (l.Middleware next a.env a.req world).2.redis = store := by
      rw [hstep next]
      by_cases hle : n + 1 ≤ 10
      · simp [hle, hnext]
      · simp [hle]
    have hcount1 : countIs (l.Middleware next a.env a.req world).2.redis
        ("ratelimit:" ++ u) (n + 1) := by
      rw [hredis]
      unfold countIs
      rw [he]
      exact ⟨by simpa using hval, by omega⟩
    have := ih (l.Middleware next a.env a.req world).2 (n + 1) hcount1
      (fun b hb => hu b (List.mem_cons_of_mem _ hb))
      (fun b hb => hok b (List.mem_cons_of_mem _ hb)) hkept1
    simpa [serveAll, Nat.add_assoc, Nat.add_comm 1 pre.length] using this

/-- C2. Let the limiter have a client, let the counter key of identity `u` be absent,
and let a sequence of requests carrying `u` be served by the limiter while the store
answers every increment and the key does not expire in between (the next handler
leaves the counter store alone).  Then request number `k = pre.length + 1` of the
sequence brings the counter to `k`; it is handed to the next handler when `k ≤ 10`; and
when `k ≥ 11` the answer is the limiter's own, whatever the next handler is: the
header `Retry-After: 60` and `http.Error` with 429, which on a writer that has sent
nothing is status 429 with `Retry-After: 60`. -/
theorem RedisLimiter.Middleware_quota (l : RedisLimiter) (cl : RedisClient) (next : Handler)
    (u : String) (world : World) (pre : List Arrival) (a : Arrival) (post : List Arrival)
    (hclient : l.client = some cl)
    (hnext : ∀ env r w, (next env r w).2.redis = w.redis)
    (habsent : world.redis ("ratelimit:" ++ u) = none)
    (hu : ∀ b ∈ pre ++ a :: post, b.req.ctx.Value "user_id" = some (.str u))
    (hok : ∀ b ∈ pre ++ a :: post, b.env.incrFails = false)
    (hkept : keyKept (l.Middleware next) ("ratelimit:" ++ u) world (pre ++ a :: post) = true) :
    ∃ store : Store,
      (∃ e, store ("ratelimit:" ++ u) = some e ∧ e.value = (pre.length : Int) + 1)
      ∧ (pre.length + 1 ≤ 10 →
          l.Middleware next a.env a.req (serveAll (l.Middleware next) world pre).2
            = next a.env a.req
                { (serveAll (l.Middleware next) world pre).2 with redis := store })
      ∧ (11 ≤ pre.length + 1 →
          (∀ next' : Handler,
            l.Middleware next' a.env a.req (serveAll (l.Middleware next) world pre).2
              = (.HeaderSet "Retry-After" "60" :: http.Error "Too Many Requests" 429,
                  { (serveAll (l.Middleware next) world pre).2 with redis := store }))
          ∧ ∀ w : ResponseWriter, w.status = none →
              (ResponseWriter.respond w
                (l.Middleware next a.env a.req
                  (serveAll (l.Middleware next) world pre).2).1).status = some 429
              ∧ (ResponseWriter.respond w
                (l.Middleware next a.env a.req
                  (serveAll (l.Middleware next) world pre).2).1).sent "Retry-After"
                  = some ["60"]) := by
  rw [keyKept_append] at hkept
  simp only [Bool.and_eq_true, keyKept] at hkept
  obtain ⟨hkpre, hlive0, _⟩ := hkept
  have hcount0 : countIs world.redis ("ratelimit:" ++ u) 0 := by
    unfold countIs
    rw [habsent]
  have hcount := RedisLimiter.serveAll_counts l cl next u hclient hnext pre world 0 hcount0
    (fun b hb => hu b (List.mem_append_left _ hb))
    (fun b hb => hok b (List.mem_append_left _ hb)) hkpre
  rw [Nat.zero_add] at hcount
  have hmem : a ∈ pre ++ a :: post := by simp
  have hlive : ∀ e, (serveAll (l.Middleware next) world pre).2.redis ("ratelimit:" ++ u) = some e →
      e.live a.env.now = true := by
    intro e he
    rw [he] at hlive0
    exact hlive0
  obtain ⟨store, hstore, _, hstep⟩ :=
    RedisLimiter.Middleware_counts l cl a.env a.req (serveAll (l.Middleware next) world pre).2 u
      pre.length hclient (hu a hmem) (hok a hmem) hcount hlive
  refine ⟨store, hstore, ?_, ?_⟩
  · intro hle
    rw [hstep next]
    simp [hle]
  · intro hgt
    have hnle : ¬ (pre.length + 1 ≤ 10) := by omega
    have hall : ∀ next' : Handler,
        l.Middleware next' a.env a.req (serveAll (l.Middleware next) world pre).2
          = (.HeaderSet "Retry-After" "60" :: http.Error "Too Many Requests" 429,
              { (serveAll (l.Middleware next) world pre).2 with redis := store }) := by
      intro next'
      rw [hstep next']
      simp [hnle]
    refine ⟨hall, ?_⟩
    intro w hw
    rw [hall next]
    exact tooManyRequests_respond w hw

/-- C2 at a concrete burst: the eleventh request of `user_1` within one window. -/
theorem RedisLimiter.Middleware_quota_witness :
    (ResponseWriter.respond ResponseWriter.fresh
      (RedisLimiter.Middleware ⟨some {}⟩ pass (arrivalAt 5 "user_1").env
        (arrivalAt 5 "user_1").req
        (serveAll (RedisLimiter.Middleware ⟨some {}⟩ pass) World.initial
          (List.replicate 10 (arrivalAt 0 "user_1"))).2).1).status = some 429 := by
  obtain ⟨_, _, _, h⟩ := RedisLimiter.Middleware_quota ⟨some {}⟩ {} pass "user_1" World.initial
    (List.replicate 10 (arrivalAt 0 "user_1")) (arrivalAt 5 "user_1") [] rfl
    (fun _ _ _ => rfl) rfl (by decide) (by decide) (by decide)
  exact ((h (by decide)).2 ResponseWriter.fresh rfl).1

/-! ## C6: the expiry of the counter -/

/-- C6 fails when the `EXPIRE` that follows the first increment is answered with an
error, which the limiter ignores: after the burst `burstLosingExpire` the counter of
`user_1` stands at 11 without expiry, and a request of `user_1` made 1000 seconds
later is still answered 429. -/
theorem RedisLimiter.Middleware_counter_without_expiry :
    (serveAll sampleLimiter World.initial burstLosingExpire).2.redis "ratelimit:user_1"
      = some { value := 11, expireAt := none }
    ∧ (ResponseWriter.respond ResponseWriter.fresh
        (sampleLimiter (arrivalAt 1000 "user_1").env (arrivalAt 1000 "user_1").req
          (serveAll sampleLimiter World.initial burstLosingExpire).2).1).status = some 429
    ∧ (sampleLimiter (arrivalAt 1000 "user_1").env (arrivalAt 1000 "user_1").req
          (serveAll sampleLimiter World.initial burstLosingExpire).2).2.redis "ratelimit:user_1"
        = some { value := 12, expireAt := none } := by
  refine ⟨?_, ?_, ?_⟩ <;> decide

/-! ## C10: one counter per identity -/

theorem ratelimit_key_injective (u v : String) (h : "ratelimit:" ++ v = "ratelimit:" ++ u) :
    v = u := by
  have hdata := congrArg String.data h
  simp only [String.data_append] at hdata
  exact String.ext (List.append_cancel_left hdata)

theorem Store.put_put (s : Store) (key : String) (e e' : RedisEntry) :
    Store.put (Store.put s key e) key e' = Store.put s key e' := by
  funext k
  by_cases hk : k = key <;> simp [Store.put, hk]

theorem incremented_live (now : Nat) (stored : Option RedisEntry) :
    (incremented now stored).live now = true := by
  unfold incremented
  cases stored with
  | none => simp [RedisEntry.live]
  | some e =>
    by_cases hl : e.live now = true
    · simp only [hl, if_true]
      exact hl
    · simp only [hl]
      rfl

/-- An answered `INCR` rewrites the key with the incremented entry and returns its value. -/
theorem Incr_eq (env : Env) (key : String) (s : Store) (hok : env.incrFails = false) :
    Incr env key s
      = some ((incremented env.now (s key)).value,
          Store.put s key (incremented env.now (s key))) := by
  unfold Incr incremented Store.get
  cases hs : s key with
  | none => simp [hok]
  | some e =>
    by_cases hl : e.live env.now = true
    · simp [hok, hl]
    · simp [hok, hl]

/-- The limiter's handling of a request that carries an identity, when it has a client
and the increment is answered. -/
theorem RedisLimiter.Middleware_eq (l : RedisLimiter) (cl : RedisClient) (next : Handler)
    (env : Env) (r : Request) (world : World) (v : String)
    (hclient : l.client = some cl) (hv : r.ctx.Value "user_id" = some (.str v))
    (hok : env.incrFails = false) :
    l.Middleware next env r world
      = if (incremented env.now (world.redis ("ratelimit:" ++ v))).value > 10 then
          (.HeaderSet "Retry-After" "60" :: http.Error "Too Many Requests" 429,
            { world with
              redis := Store.put world.redis ("ratelimit:" ++ v)
                (counted env (world.redis ("ratelimit:" ++ v))) })
        else
          next env r
            { world with
              redis := Store.put world.redis ("ratelimit:" ++ v)
                (counted env (world.redis ("ratelimit:" ++ v))) } := by
  have hstore : (if (incremented env.now (world.redis ("ratelimit:" ++ v))).value = 1 then
        Expire env ("ratelimit:" ++ v) 60
          (Store.put world.redis ("ratelimit:" ++ v)
            (incremented env.now (world.redis ("ratelimit:" ++ v))))
      else Store.put world.redis ("ratelimit:" ++ v)
            (incremented env.now (world.redis ("ratelimit:" ++ v))))
      = Store.put world.redis ("ratelimit:" ++ v)
          (counted env (world.redis ("ratelimit:" ++ v))) := by
    unfold counted
    by_cases h1 : (incremented env.now (world.redis ("ratelimit:" ++ v))).value = 1
    · cases hexp : env.expireFails with
      | true => simp [h1, Expire, hexp]
      | false =>
        have hlive := incremented_live env.now (world.redis ("ratelimit:" ++ v))
        simp [h1, Expire, hexp, Store.get, Store.put, hlive, Store.put_put]
    · simp [h1]
  unfold RedisLimiter.Middleware
  simp only [hclient, hv, Incr_eq env _ _ hok, hstore]

/-- The limiter writes to the store under the key of the request's identity only, and
not at all when the request carries no string identity. -/
theorem RedisLimiter.Middleware_frame (l : RedisLimiter) (next : Handler)
    (hnext : ∀ env r w, (next env r w).2.redis = w.redis)
    (env : Env) (r : Request) (world : World) :
    (∀ v : String, r.ctx.Value "user_id" = some (.str v) →
      ∀ k : String, k ≠ "ratelimit:" ++ v →
        (l.Middleware next env r world).2.redis k = world.redis k)
    ∧ ((∀ v : String, r.ctx.Value "user_id" ≠ some (.str v)) →
        (l.Middleware next env r world).2.redis = world.redis) := by
  constructor
  · intro v hv k hk
    cases hc : l.client with
    | none => simp [RedisLimiter.Middleware, hc, hnext]
    | some cl =>
      cases hok : env.incrFails with
      | true => simp [RedisLimiter.Middleware, hc, hv, Incr, hok, hnext]
      | false =>
        rw [RedisLimiter.Middleware_eq l cl next env r world v hc hv hok]
        split <;> simp [hnext, Store.put, hk]
  · intro hno
    cases hc : l.client with
    | none => simp [RedisLimiter.Middleware, hc, hnext]
    | some cl =>
      unfold RedisLimiter.Middleware
      simp only [hc]

/-- What the limiter answers to a request, and the entry it leaves under the key of the
request's identity, depend on the store through that key only. -/
theorem RedisLimiter.Middleware_local (l : RedisLimiter) (next : Handler)
    (hnext : ∀ env r w, (next env r w).2.redis = w.redis)
    (hcalls : ∀ env r w w', (next env r w).1 = (next env r w').1)
    (env : Env) (r : Request) (w1 w2 : World) :
    (∀ v : String, r.ctx.Value "user_id" = some (.str v) →
      w1.redis ("ratelimit:" ++ v) = w2.redis ("ratelimit:" ++ v) →
        (l.Middleware next env r w1).1 = (l.Middleware next env r w2).1
        ∧ (l.Middleware next env r w1).2.redis ("ratelimit:" ++ v)
            = (l.Middleware next env r w2).2.redis ("ratelimit:" ++ v))
    ∧ ((∀ v : String, r.ctx.Value "user_id" ≠ some (.str v)) →
        (l.Middleware next env r w1).1 = (l.Middleware next env r w2).1) := by
  constructor
  · intro v hv hsame
    cases hc : l.client with
    | none =>
      simp only [RedisLimiter.Middleware, hc, hnext]
      exact ⟨hcalls _ _ _ _, hsame⟩
    | some cl =>
      cases hok : env.incrFails with
      | true =>
        simp only [RedisLimiter.Middleware, hc, hv, Incr, hok, if_true, hnext]
        exact ⟨hcalls _ _ _ _, hsame⟩
      | false =>
        rw [RedisLimiter.Middleware_eq l cl next env r w1 v hc hv hok,
          RedisLimiter.Middleware_eq l cl next env r w2 v hc hv hok, hsame]
        split
        · simp [Store.put]
        · simp only [hnext]
          exact ⟨hcalls _ _ _ _, by simp [Store.put]⟩
  · intro hno
    cases hc : l.client with
    | none =>
      simp only [RedisLimiter.Middleware, hc]
      exact hcalls _ _ _ _
    | some cl =>
      unfold RedisLimiter.Middleware
      simp only [hc]

/-- A request that does not carry `u`, served from two states that agree outside the
key of `u`: the same answer, and the states still agree outside that key. -/
theorem RedisLimiter.Middleware_other (l : RedisLimiter) (next : Handler) (u : String)
    (hnext : ∀ env r w, (next env r w).2.redis = w.redis)
    (hcalls : ∀ env r w w', (next env r w).1 = (next env r w').1)
    (env : Env) (r : Request) (w1 w2 : World)
    (hother : r.ctx.Value "user_id" ≠ some (.str u))
    (hagree : agreeExcept ("ratelimit:" ++ u) w1 w2) :
    (l.Middleware next env r w1).1 = (l.Middleware next env r w2).1
    ∧ agreeExcept ("ratelimit:" ++ u) (l.Middleware next env r w1).2
        (l.Middleware next env r w2).2 := by
  by_cases hid : ∃ v : String, r.ctx.Value "user_id" = some (.str v)
  · obtain ⟨v, hv⟩ := hid
    have hvu : v ≠ u := by
      intro h
      apply hother
      rw [hv, h]
    have hkey : "ratelimit:" ++ v ≠ "ratelimit:" ++ u :=
      fun h => hvu (ratelimit_key_injective u v h)
    obtain ⟨hc, hentry⟩ :=
      (RedisLimiter.Middleware_local l next hnext hcalls env r w1 w2).1 v hv
        (hagree _ hkey)
    refine ⟨hc, ?_⟩
    intro k hk
    by_cases hkv : k = "ratelimit:" ++ v
    · rw [hkv]
      exact hentry
    · rw [(RedisLimiter.Middleware_frame l next hnext env r w1).1 v hv k hkv,
        (RedisLimiter.Middleware_frame l next hnext env r w2).1 v hv k hkv]
      exact hagree k hk
  · have hno : ∀ v : String, r.ctx.Value "user_id" ≠ some (.str v) :=
      fun v hv => hid ⟨v, hv⟩
    refine ⟨(RedisLimiter.Middleware_local l next hnext hcalls env r w1 w2).2 hno, ?_⟩
    intro k hk
    rw [(RedisLimiter.Middleware_frame l next hnext env r w1).2 hno,
      (RedisLimiter.Middleware_frame l next hnext env r w2).2 hno]
    exact hagree k hk

/-- The answers to the others do not depend on the requests of `u`: they are the answers
obtained when the requests of `u` are left out, from any state that agrees outside the
key of `u`. -/
theorem answersToOthers_filter (l : RedisLimiter) (next : Handler) (u : String)
    (hnext : ∀ env r w, (next env r w).2.redis = w.redis)
    (hcalls : ∀ env r w w', (next env r w).1 = (next env r w').1) (run : List Arrival) :
    ∀ w1 w2 : World, agreeExcept ("ratelimit:" ++ u) w1 w2 →
      answersToOthers (l.Middleware next) u w1 run
        = answersToOthers (l.Middleware next) u w2 (run.filter (fun a => !carries u a)) := by
  induction run with
  | nil => intro w1 w2 _; rfl
  | cons a rest ih =>
    intro w1 w2 hagree
    by_cases hc : carries u a = true
    · have hu : a.req.ctx.Value "user_id" = some (.str u) := by
        simpa [carries] using hc
      have hstep : agreeExcept ("ratelimit:" ++ u) (l.Middleware next a.env a.req w1).2 w2 := by
        intro k hk
        rw [(RedisLimiter.Middleware_frame l next hnext a.env a.req w1).1 u hu k hk]
        exact hagree k hk
      simp only [answersToOthers, hc, if_true, List.filter_cons, Bool.not_true]
      exact ih _ _ hstep
    · have hcf : carries u a = false := by simpa using hc
      have hother : a.req.ctx.Value "user_id" ≠ some (.str u) := by
        simpa [carries] using hcf
      obtain ⟨hsame, hstep⟩ :=
        RedisLimiter.Middleware_other l next u hnext hcalls a.env a.req w1 w2 hother hagree
      simp only [answersToOthers, hcf, List.filter_cons, Bool.not_false, if_true]
      simp only [Bool.false_eq_true, if_false]
      rw [hsame, ih _ _ hstep]

/-- C10. For a next handler that leaves the counter store alone and whose calls do not
depend on the state of the services: a request carrying `u` changes no key of the store
other than `"ratelimit:" ++ u`; its answer and the entry it leaves under that key are
the same from any two stores that hold the same entry under that key; distinct
identities have distinct keys; and two runs from the same state that contain the same
requests of the others, in the same order and with the same environments, and differ
only in the requests carrying `u`, give the same answers to all requests of the
others. -/
theorem RedisLimiter.per_identity (l : RedisLimiter) (next : Handler) (u : String)
    (hnext : ∀ env r w, (next env r w).2.redis = w.redis)
    (hcalls : ∀ env r w w', (next env r w).1 = (next env r w').1) :
    (∀ (env : Env) (r : Request) (world : World),
      r.ctx.Value "user_id" = some (.str u) →
      ∀ k : String, k ≠ "ratelimit:" ++ u →
        (l.Middleware next env r world).2.redis k = world.redis k)
    ∧ (∀ (env : Env) (r : Request) (w1 w2 : World),
        r.ctx.Value "user_id" = some (.str u) →
        w1.redis ("ratelimit:" ++ u) = w2.redis ("ratelimit:" ++ u) →
          (l.Middleware next env r w1).1 = (l.Middleware next env r w2).1
          ∧ (l.Middleware next env r w1).2.redis ("ratelimit:" ++ u)
              = (l.Middleware next env r w2).2.redis ("ratelimit:" ++ u))
    ∧ (∀ v : String, v ≠ u → "ratelimit:" ++ v ≠ "ratelimit:" ++ u)
    ∧ (∀ (world : World) (run1 run2 : List Arrival),
        run1.filter (fun a => !carries u a) = run2.filter (fun a => !carries u a) →
          answersToOthers (l.Middleware next) u world run1
            = answersToOthers (l.Middleware next) u world run2) := by
  refine ⟨?_, ?_, ?_, ?_⟩
  · intro env r world hu k hk
    exact (RedisLimiter.Middleware_frame l next hnext env r world).1 u hu k hk
  · intro env r w1 w2 hu hsame
    exact (RedisLimiter.Middleware_local l next hnext hcalls env r w1 w2).1 u hu hsame
  · intro v hvu h
    exact hvu (ratelimit_key_injective u v h)
  · intro world run1 run2 hfilter
    have hrefl : agreeExcept ("ratelimit:" ++ u) world world := fun _ _ => rfl
    rw [answersToOthers_filter l next u hnext hcalls run1 world world hrefl,
      answersToOthers_filter l next u hnext hcalls run2 world world hrefl, hfilter]

/-- The handlers behind the limiter in `main` leave the counter store alone. -/
theorem logged_proxy_redis (d : NeonDB) (env : Env) (r : Request) (w : World) :
    (NeonDB.Middleware d HandleGeminiProxy env r w).2.redis = w.redis := by
  have hproxy : (HandleGeminiProxy env r w).2.redis = w.redis := by
    unfold HandleGeminiProxy
    by_cases hkey : env.Getenv "GEMINI_API_KEY" = ""
    · simp [hkey]
    · simp only [hkey, if_false]
      cases http.NewRequest env r.Method _ r.Body with
      | none => rfl
      | some q =>
        simp only
        cases env.Do _ <;> rfl
  unfold NeonDB.Middleware
  by_cases hab : aborts (HandleGeminiProxy env r w).1 = true <;> cases d.db <;>
    simpa [hab] using hproxy

/-- The calls of the handlers behind the limiter in `main` do not depend on the state of
the services. -/
theorem logged_proxy_calls (d : NeonDB) (env : Env) (r : Request) (w w' : World) :
    (NeonDB.Middleware d HandleGeminiProxy env r w).1
      = (NeonDB.Middleware d HandleGeminiProxy env r w').1 := by
  have hproxy : (HandleGeminiProxy env r w).1 = (HandleGeminiProxy env r w').1 := by
    unfold HandleGeminiProxy
    by_cases hkey : env.Getenv "GEMINI_API_KEY" = ""
    · simp [hkey]
    · simp only [hkey, if_false]
      cases http.NewRequest env r.Method _ r.Body with
      | none => rfl
      | some q =>
        simp only
        cases env.Do _ <;> rfl
  rw [NeonDB.Middleware_forwards d HandleGeminiProxy env r w,
    NeonDB.Middleware_forwards d HandleGeminiProxy env r w', hproxy]

/-- C10 with the handlers of `main` behind the limiter: `user_2` gets the same answer
whether or not `user_1` has sent eleven requests before. -/
theorem RedisLimiter.per_identity_witness :
    answersToOthers
        (RedisLimiter.Middleware ⟨some {}⟩ (NeonDB.Middleware ⟨some {}⟩ HandleGeminiProxy))
        "user_1" World.initial [arrivalAt 0 "user_2"]
      = answersToOthers
        (RedisLimiter.Middleware ⟨some {}⟩ (NeonDB.Middleware ⟨some {}⟩ HandleGeminiProxy))
        "user_1" World.initial
        (List.replicate 11 (arrivalAt 0 "user_1") ++ [arrivalAt 0 "user_2"]) :=
  (RedisLimiter.per_identity ⟨some {}⟩ (NeonDB.Middleware ⟨some {}⟩ HandleGeminiProxy) "user_1"
    (fun env r w => logged_proxy_redis _ env r w)
    (fun env r w w' => logged_proxy_calls _ env r w w')).2.2.2 World.initial
    [arrivalAt 0 "user_2"] (List.replicate 11 (arrivalAt 0 "user_1") ++ [arrivalAt 0 "user_2"])
    rfl

/-! ## The window when every `EXPIRE` is answered -/

/-- When the `EXPIRE` of the request is answered, the entry that the limiter leaves
under the key has an expiry: the one it had, or 60 seconds from now when the
increment gave 1. -/
theorem counted_expiry (env : Env) (stored : Option RedisEntry)
    (hexp : env.expireFails = false)
    (hinv : ∀ e, stored = some e → ∃ t, e.expireAt = some t) :
    ∃ t, (counted env stored).expireAt = some t := by
  unfold counted
  by_cases h1 : (incremented env.now stored).value = 1
  · exact ⟨env.now + 60, by simp [h1, hexp]⟩
  · simp only [h1, false_and, if_false]
    unfold incremented at h1 ⊢
    cases stored with
    | none => simp at h1
    | some e =>
      by_cases hl : e.live env.now = true
      · obtain ⟨t, ht⟩ := hinv e rfl
        exact ⟨t, by simp [hl, ht]⟩
      · simp [hl] at h1

/-- While every `EXPIRE` is answered, every counter written by the limiter carries an
expiry: the property is kept by each request the limiter handles. -/
theorem RedisLimiter.Middleware_keeps_expiry (l : RedisLimiter) (next : Handler)
    (hnext : ∀ env r w, (next env r w).2.redis = w.redis)
    (env : Env) (r : Request) (world : World) (hexp : env.expireFails = false)
    (hinv : ∀ k e, world.redis k = some e → ∃ t, e.expireAt = some t) :
    ∀ k e, (l.Middleware next env r world).2.redis k = some e → ∃ t, e.expireAt = some t := by
  by_cases hid : ∃ v : String, r.ctx.Value "user_id" = some (.str v)
  · obtain ⟨v, hv⟩ := hid
    cases hc : l.client with
    | none =>
      intro k e he
      simp only [RedisLimiter.Middleware, hc, hnext] at he
      exact hinv k e he
    | some cl =>
      cases hok : env.incrFails with
      | true =>
        intro k e he
        simp only [RedisLimiter.Middleware, hc, hv, Incr, hok, if_true, hnext] at he
        exact hinv k e he
      | false =>
        have hredis : (l.Middleware next env r world).2.redis
            = Store.put world.redis ("ratelimit:" ++ v)
                (counted env (world.redis ("ratelimit:" ++ v))) := by
          rw [RedisLimiter.Middleware_eq l cl next env r world v hc hv hok]
          split <;> simp [hnext]
        intro k e he
        rw [hredis] at he
        by_cases hk : k = "ratelimit:" ++ v
        · simp only [Store.put, hk, if_true, Option.some.injEq] at he
          rw [← he]
          exact counted_expiry env _ hexp (fun e0 h0 => hinv _ e0 h0)
        · simp only [Store.put, hk, if_false] at he
          exact hinv k e he
  · have hno : ∀ v : String, r.ctx.Value "user_id" ≠ some (.str v) :=
      fun v hv => hid ⟨v, hv⟩
    intro k e he
    rw [(RedisLimiter.Middleware_frame l next hnext env r world).2 hno] at he
    exact hinv k e he

/-- A request of an identity whose counter has reached its expiry time starts a new
window: the increment gives 1 and the request is handed to the next handler, whatever
the expired counter was. -/
theorem RedisLimiter.Middleware_after_expiry (l : RedisLimiter) (cl : RedisClient)
    (next : Handler) (env : Env) (r : Request) (world : World) (u : String)
    (e : RedisEntry) (t : Nat)
    (hclient : l.client = some cl)
    (hu : r.ctx.Value "user_id" = some (.str u))
    (hok : env.incrFails = false)
    (hentry : world.redis ("ratelimit:" ++ u) = some e)
    (hexpiry : e.expireAt = some t) (hpast : t ≤ env.now) :
    (incremented env.now (world.redis ("ratelimit:" ++ u))).value = 1
    ∧ l.Middleware next env r world
        = next env r
            { world with
              redis := Store.put world.redis ("ratelimit:" ++ u)
                (counted env (world.redis ("ratelimit:" ++ u))) } := by
  have hdead : e.live env.now = false := by
    simp [RedisEntry.live, hexpiry, hpast]
  have hone : (incremented env.now (world.redis ("ratelimit:" ++ u))).value = 1 := by
    simp [incremented, hentry, hdead]
  refine ⟨hone, ?_⟩
  rw [RedisLimiter.Middleware_eq l cl next env r world u hclient hu hok]
  simp [hone]

end Gateway
